import Mathlib

/-!
# Verification of the chrono-sage-mp control core (src/src/control.c, src/src/control.h)

A shallow embedding of the controller: the eight-row clock-divider data model
(`row_params_t`, `config_t`, `preset_data_t`), the trigger recomputation
(`set_trigger_bits`), the logic-graph edit handler (`process_grid_press`,
`process_nested_change`), the clock engine (`clock`, `step`, `rotate_clocks`),
the error-alert machinery (`fire_error_alerts`) and the preset controller
(`load_preset`, `save_preset`).

Modelling conventions:
* C `u8` globals become `ℕ`/`Bool` fields of one explicit `State` value; stores
  that could wrap a `u8` (`y + 1` into a `u8` field) are taken modulo 256.
* C comparisons such as `compared_row - 1 == y` happen after integer promotion,
  so `0 - 1 == y` is `-1 == y` (always false); they are rendered as
  `compared_row = y + 1`, which is equivalent over the integers.
* The row array is modelled as a total function `ℕ → row_params_t`; the C code
  performs no bounds check on row indices, and this models an access at index
  `i ≥ 8` simply as touching a phantom row (in C it would be out of bounds).
* The two chain walks of `process_nested_change` are loops without any
  termination guarantee in C (they terminate because reachable logic graphs are
  acyclic); they are modelled with a fuel counter large enough for every
  terminating run on the 8-row graph.
* External collaborators (flash store, grid LEDs, timers, gates) are modelled
  by a `flash` map inside the state and by dropping pure hardware writes.
-/

/-- `enum logic_depth { SINGLE, NESTED }` from control.h. -/
inductive LogicDepth where
  | SINGLE
  | NESTED
deriving DecidableEq

/-- `enum input_config { CLOCK, ROTATE }` from control.h. -/
inductive InputConfig where
  | CLOCK
  | ROTATE
deriving DecidableEq

/-- `enum page_type { MAIN, CONFIG }` from control.h. -/
inductive PageType where
  | MAIN
  | CONFIG
deriving DecidableEq

/-- `logic_t` from control.h: the operator tag (stored as a number, as the C
code stores the pressed column `x` into the enum field) and the 1-based index
of the compared row (0 meaning no logic edge). -/
@[ext]
structure logic_t where
  type : ℕ
  compared_row : ℕ
deriving DecidableEq

/-- `row_params_t` from control.h. `triggers` is the 128-entry fire table. -/
@[ext]
structure row_params_t where
  position : ℕ
  division : ℕ
  offset : ℕ
  triggers : List Bool
  blink : Bool
  logic : logic_t
deriving DecidableEq

/-- `config_t` from control.h. -/
@[ext]
structure config_t where
  logic_depth : LogicDepth
  input_config : InputConfig
  clock_divs : List ℕ
deriving DecidableEq

/-- `preset_data_t` from control.h: the config plus the row array, modelled as
a total function on row indices. -/
@[ext]
structure preset_data_t where
  config : config_t
  row : ℕ → row_params_t

/-- The mutable globals of control.c plus the external flash store. -/
@[ext]
structure State where
  p : preset_data_t
  flash : ℕ → preset_data_t
  preset_index : ℕ
  page : PageType
  selected_row : ℕ
  ec : ℕ
  do_error : Bool
  do_blink_error : Bool
  error_ref_row : ℕ
  current_tick : ℕ
  selected_preset : ℕ
  is_preset_saved : Bool

def MAX_STEPS : ℕ := 128

def GATE_OUTS : ℕ := 8

def MAX_PRESETS : ℕ := 10

/-- `u8 default_divisions[12] = {128,64,32,16,8,7,6,5,4,3,2,1};` -/
def default_divisions : List ℕ := [128, 64, 32, 16, 8, 7, 6, 5, 4, 3, 2, 1]

/-- `get_division`: `return p.config.clock_divs[pos - 4];` (out-of-range
lookups, impossible for reachable positions, default to 0). -/
def get_division (st : State) (pos : ℕ) : ℕ :=
  st.p.config.clock_divs.getD (pos - 4) 0

/-- Apply a field update to row `r` of the row array. -/
def update_row (st : State) (r : ℕ) (f : row_params_t → row_params_t) : State :=
  { st with p := { st.p with row := fun i => if i = r then f (st.p.row i) else st.p.row i } }

/-- The base fire table of a divisor: `triggers[i] = (i + 1) % d == 0`. -/
def base_triggers (d : ℕ) : List Bool :=
  (List.range MAX_STEPS).map (fun i => (i + 1) % d == 0)

/-- The `switch(p.row[r].logic.type)` in `set_trigger_bits`: case 1 combines
with `&&`, case 2 with `||`, case 3 with `!=`; any other value leaves the base
table (the switch has no matching case). -/
def apply_logic_op (t : ℕ) (a b : List Bool) : List Bool :=
  match t with
  | 1 => List.zipWith (fun u v => u && v) a b
  | 2 => List.zipWith (fun u v => u || v) a b
  | 3 => List.zipWith (fun u v => u != v) a b
  | _ => a

/-- `set_trigger_bits(r, d)`: write the base table of `d` into row `r`, then,
if the row has a logic operator set, combine it pointwise with the compared
row's current trigger table. -/
def set_trigger_bits (st : State) (r d : ℕ) : State :=
  let st1 := update_row st r (fun rw => { rw with triggers := base_triggers d })
  if (st1.p.row r).logic.type > 0 then
    let b := (st1.p.row ((st1.p.row r).logic.compared_row - 1)).triggers
    update_row st1 r (fun rw =>
      { rw with triggers := apply_logic_op rw.logic.type rw.triggers b })
  else st1

/-- `get_total_logical_refs`: the number of rows with a logic edge set. -/
def get_total_logical_refs (st : State) : ℕ :=
  (List.range GATE_OUTS).countP (fun i => (st.p.row i).logic.compared_row != 0)

/-- `get_row_compared_from(r)`: 1 + the first row index whose edge targets
`r`, or 0 when no row targets `r`. -/
def get_row_compared_from (st : State) (r : ℕ) : ℕ :=
  match (List.range GATE_OUTS).find? (fun i => (st.p.row i).logic.compared_row == r + 1) with
  | some i => i + 1
  | none => 0

/-- `is_logically_referenced(r, include_selected)`: some row (other than the
selected row, unless `include_selected`) targets `r`. -/
def is_logically_referenced (st : State) (r : ℕ) (include_selected : Bool) : Bool :=
  (List.range GATE_OUTS).any (fun i =>
    if include_selected then (st.p.row i).logic.compared_row == r + 1
    else (i != st.selected_row) && ((st.p.row i).logic.compared_row == r + 1))

/-- `is_circularly_referenced(r)`: row `r` has an edge and it targets the
selected row. -/
def is_circularly_referenced (st : State) (r : ℕ) : Bool :=
  (st.p.row r).logic.compared_row == st.selected_row + 1

/-- `set_bits_for_logic_update(x, y, toggled_off)`: commit a SINGLE-depth edge
edit on the selected row and recompute its trigger table. -/
def set_bits_for_logic_update (st : State) (x y : ℕ) (toggled_off : Bool) : State :=
  let sel := st.selected_row
  let st1 := update_row st sel (fun rw =>
    { rw with logic := { type := if toggled_off then 0 else x,
                         compared_row := if toggled_off then 0 else (y + 1) % 256 } })
  let st2 := update_row st1 sel (fun rw => { rw with division := get_division st1 rw.position })
  set_trigger_bits st2 sel ((st2.p.row sel).division)

/-- One recomputation step of `process_nested_change`'s non-checking mode:
`p.row[s].division = get_division(p.row[s].position); set_trigger_bits(s, ...)`. -/
def recompute_row (st : State) (i : ℕ) : State :=
  let st1 := update_row st i (fun rw => { rw with division := get_division st rw.position })
  set_trigger_bits st1 i ((st1.p.row i).division)

/-- Fuel bound for the two chain walks of `process_nested_change`; any
terminating walk on the 8-row graph takes at most 8 steps. -/
def NESTED_FUEL : ℕ := 16

/-- The upward walk of `process_nested_change`: follow `compared_row` from `r`
pushing visited rows, detecting (in checking mode) a return to `r`. Returns
the link flag and the stack, most recently pushed row first. -/
def nested_up (st : State) (r : ℕ) (jc : Bool) : ℕ → ℕ → List ℕ → Bool × List ℕ
  | 0, _, acc => (false, acc)
  | fuel + 1, c, acc =>
    if c = 0 then (false, acc)
    else if jc = true ∧ c = r + 1 then (true, acc)
    else nested_up st r jc fuel ((st.p.row (c - 1)).logic.compared_row) ((c - 1) :: acc)

/-- The downward walk of `process_nested_change`: repeatedly find the row that
targets the current row; in checking mode detect a return to `r`, otherwise
recompute each visited row. -/
def nested_down (r : ℕ) (jc : Bool) : ℕ → State → ℕ → Bool × State
  | 0, st, _ => (false, st)
  | fuel + 1, st, c =>
    if c = 0 then (false, st)
    else if jc = true then
      if c = r + 1 then (true, st)
      else nested_down r jc fuel st (get_row_compared_from st (c - 1))
    else
      let st' := recompute_row st (c - 1)
      nested_down r jc fuel st' (get_row_compared_from st' (c - 1))

/-- `process_nested_change(r, just_checking)`: walk the chain above `r`
(collecting a stack), then in non-checking mode recompute the stacked rows
root-most first (LIFO pops, ending with `r` itself), then walk the chain below
`r`. In checking mode nothing is mutated and the returned flag says whether
the walk came back to `r`. -/
def process_nested_change (st : State) (r : ℕ) (just_checking : Bool) : Bool × State :=
  let up := nested_up st r just_checking NESTED_FUEL ((st.p.row r).logic.compared_row) [r]
  let st1 := if just_checking then st else up.2.foldl recompute_row st
  let down := nested_down r just_checking NESTED_FUEL st1 (get_row_compared_from st1 r)
  (up.1 || down.1, down.2)

/-- Page toggle from the front button / held top-left key. -/
def toggle_config_page (st : State) : State :=
  { st with page := if st.page = PageType.CONFIG then PageType.MAIN else PageType.CONFIG }

/-- `load_preset(preset)`: record the slot and replace Config+Rows wholesale
from the store. Nothing else is touched. -/
def load_preset (st : State) (preset : ℕ) : State :=
  { st with selected_preset := preset, p := st.flash preset }

/-- `save_preset()`: persist the current Config+Rows at the selected slot and
record the slot as the stored preset index. -/
def save_preset (st : State) : State :=
  { st with flash := fun i => if i = st.selected_preset then st.p else st.flash i,
            preset_index := st.selected_preset,
            is_preset_saved := true }

/-- `reset_all_logic`: clear every row's edge and restore the default
position/division, recomputing the trigger tables. -/
def reset_all_logic (st : State) : State :=
  (List.range GATE_OUTS).foldl (fun s i =>
    let s1 := update_row s i (fun rw =>
      { rw with logic := { type := 0, compared_row := 0 }, position := 15 - i })
    let s2 := update_row s1 i (fun rw => { rw with division := get_division s1 rw.position })
    set_trigger_bits s2 i ((s2.p.row i).division)) st

/-- `fire_gate(r)` without the hardware writes: set the row's blink flag. -/
def fire_gate (st : State) (r : ℕ) : State :=
  update_row st r (fun rw => { rw with blink := true })

/-- `clock()`: advance the shared tick counter modulo `MAX_STEPS` and fire
every row whose trigger table is set at the new tick. -/
def clock (st : State) : State :=
  let st1 := { st with current_tick := (st.current_tick + 1) % MAX_STEPS }
  (List.range GATE_OUTS).foldl (fun s i =>
    if (s.p.row i).triggers.getD s.current_tick false then fire_gate s i else s) st1

/-- `fire_error_alerts()`: while an alert is pending, count phases (modulo the
`u8` range), toggling the blink flag on odd counts and clearing everything at
count 5. -/
def fire_error_alerts (st : State) : State :=
  if st.do_error then
    let ec' := (st.ec + 1) % 256
    if ec' = 5 then
      { st with ec := 0, do_error := false, do_blink_error := false, error_ref_row := 0 }
    else
      { st with ec := ec', do_blink_error := ec' % 2 == 1 }
  else st

/-- `step()`: one clock tick (the aux clock output and grid refresh are pure
hardware effects). -/
def step (st : State) : State :=
  fire_error_alerts (clock st)

/-- `rotate_clocks()`: the RotateIn handler. Row `i < 7` inherits row `i+1`'s
position (still unmodified when read), row 7 inherits row 0's pre-rotation
position; every division is re-derived from the divisor table and every
trigger table recomputed. -/
def rotate_clocks (st : State) : State :=
  let first_pos := (st.p.row 0).position
  let first_div := get_division st first_pos
  (List.range GATE_OUTS).foldl (fun s i =>
    if i = 7 then
      let s1 := update_row s 7 (fun rw => { rw with position := first_pos, division := first_div })
      set_trigger_bits s1 7 first_div
    else
      let s1 := update_row s i (fun rw => { rw with position := (s.p.row (i + 1)).position })
      let s2 := update_row s1 i (fun rw => { rw with division := get_division s1 rw.position })
      set_trigger_bits s2 i ((s2.p.row i).division)) st

/-- The trailing input-mode check of the CONFIG page of `process_grid_press`:
`(x == 14 || x == 15) && y == 0 && !on` selects ClockIn/RotateIn. -/
def config_input_press (st : State) (x y : ℕ) (onp : Bool) : State :=
  if (x = 14 ∨ x = 15) ∧ y = 0 ∧ onp = false then
    { st with p := { st.p with config :=
        { st.p.config with input_config :=
            if x = 14 then InputConfig.CLOCK else InputConfig.ROTATE } } }
  else st

/-- Overwrite the logic depth in the config. -/
def set_logic_depth (st : State) (d : LogicDepth) : State :=
  { st with p := { st.p with config := { st.p.config with logic_depth := d } } }

/-- The logic-button branch (`x > 0 && x < 4`) of the MAIN page of
`process_grid_press`, for both logic depths, including the NESTED tentative
edge, its cycle re-check and its rollback. -/
def logic_press (st : State) (x y : ℕ) : State :=
  let sel := st.selected_row
  let was_toggled_off : Bool :=
    ((st.p.row sel).logic.type == x) && ((st.p.row sel).logic.compared_row == y + 1)
  if st.p.config.logic_depth = LogicDepth.SINGLE then
    if is_circularly_referenced st y then
      { st with do_error := true, error_ref_row := (y + 1) % 256 }
    else if sel = y then
      { st with do_error := true, error_ref_row := (sel + 1) % 256 }
    else
      set_bits_for_logic_update st x y was_toggled_off
  else
    if is_logically_referenced st y false then
      { st with do_error := true, error_ref_row := get_row_compared_from st y }
    else if is_circularly_referenced st y then
      { st with do_error := true, error_ref_row := (y + 1) % 256 }
    else if (process_nested_change st y true).1 = true ∨ sel = y ∨
        (get_total_logical_refs st > GATE_OUTS - 2 ∧ was_toggled_off = false ∧
          ¬((st.p.row sel).logic.compared_row = y + 1)) then
      { st with do_error := true, error_ref_row := (sel + 1) % 256 }
    else
      let last_compared_row := (st.p.row sel).logic.compared_row
      let last_logic_type := (st.p.row sel).logic.type
      let stT := update_row st sel (fun rw =>
        { rw with logic := { type := if was_toggled_off then 0 else x,
                             compared_row := if was_toggled_off then 0 else (y + 1) % 256 } })
      let stT2 := update_row stT sel (fun rw =>
        { rw with division := get_division stT rw.position })
      if (process_nested_change stT2 sel true).1 = false then
        (process_nested_change stT2 sel false).2
      else
        let stR := update_row stT2 sel (fun rw =>
          { rw with logic := { type := last_logic_type, compared_row := last_compared_row } })
        { stR with do_error := true, error_ref_row := (sel + 1) % 256 }

/-- The division-button branch (`x > 3 && x < 16`) of the MAIN page of
`process_grid_press`: move row `y`'s position, re-derive its division,
recompute its triggers, then refresh the rows that depend on it. -/
def division_press (st : State) (x y : ℕ) : State :=
  let st1 := update_row st y (fun rw => { rw with position := x })
  let st2 := update_row st1 y (fun rw => { rw with division := get_division st1 rw.position })
  let st3 := set_trigger_bits st2 y ((st2.p.row y).division)
  if st3.p.config.logic_depth = LogicDepth.SINGLE then
    (List.range GATE_OUTS).foldl (fun s i =>
      if (s.p.row i).logic.compared_row = y + 1 then
        set_trigger_bits s i ((s.p.row i).division)
      else s) st3
  else
    (process_nested_change st3 y false).2

/-- `process_grid_press(x, y, on)`. -/
def process_grid_press (st : State) (x y : ℕ) (onp : Bool) : State :=
  if st.page = PageType.CONFIG then
    let st1 := if 2 < x ∧ x < 13 ∧ y = 0 ∧ onp = false then load_preset st (x - 3) else st
    if 2 < x ∧ x < 7 ∧ 1 < y ∧ y < 6 ∧ st1.p.config.logic_depth = LogicDepth.NESTED then
      if onp = false then st1
      else config_input_press (reset_all_logic (set_logic_depth st1 LogicDepth.SINGLE)) x y onp
    else if 8 < x ∧ x < 13 ∧ 1 < y ∧ y < 6 ∧ st1.p.config.logic_depth = LogicDepth.SINGLE then
      if onp = false then st1
      else config_input_press (reset_all_logic (set_logic_depth st1 LogicDepth.NESTED)) x y onp
    else config_input_press st1 x y onp
  else
    if onp = false then st
    else
      let stA := if x = 0 then { st with selected_row := y } else st
      let stB := if 0 < x ∧ x < 4 then logic_press stA x y else stA
      if 3 < x ∧ x < 16 then division_press stB x y else stB

/-- `process_grid_held(x, y)`: toggle the page on a held top-left key, then
(on the CONFIG page) save the pressed preset slot. -/
def process_grid_held (st : State) (x y : ℕ) : State :=
  let st1 := if x = 0 ∧ y = 0 then toggle_config_page st else st
  if st1.page = PageType.CONFIG ∧ 2 < x ∧ x < 13 ∧ y = 0 then
    save_preset { st1 with selected_preset := x - 3 }
  else st1

/-- A zeroed row, standing for the zero-initialised C globals. -/
def zero_row : row_params_t :=
  { position := 0, division := 0, offset := 0,
    triggers := List.replicate MAX_STEPS false, blink := false,
    logic := { type := 0, compared_row := 0 } }

/-- A zeroed preset. -/
def zero_preset : preset_data_t :=
  { config := { logic_depth := LogicDepth.SINGLE, input_config := InputConfig.CLOCK,
                clock_divs := List.replicate 12 0 },
    row := fun _ => zero_row }

/-- The zero-initialised C global state before `init_presets` runs. -/
def zero_state : State :=
  { p := zero_preset, flash := fun _ => zero_preset, preset_index := 0,
    page := PageType.MAIN, selected_row := 0, ec := 0, do_error := false,
    do_blink_error := false, error_ref_row := 0, current_tick := 0,
    selected_preset := 0, is_preset_saved := false }

/-- `init_presets()`: install the default config and rows (row `i` at position
`15 - i` with its division from the table and no logic), then store the
result to every preset slot and record slot 0. -/
def init_presets (st : State) : State :=
  let st1 := { st with p := { st.p with config :=
      { logic_depth := LogicDepth.SINGLE, input_config := InputConfig.CLOCK,
        clock_divs := default_divisions } } }
  let st2 := (List.range GATE_OUTS).foldl (fun s i =>
    let sA := update_row s i (fun rw =>
      { rw with position := 15 - i, logic := { type := 0, compared_row := 0 } })
    let sB := update_row sA i (fun rw => { rw with division := get_division sA rw.position })
    set_trigger_bits sB i ((sB.p.row i).division)) st1
  { st2 with flash := fun _ => st2.p, preset_index := 0 }

/-- `init_control()`: reset the tick counter and selection, then load the
stored preset index (timers and knob sampling are hardware effects). -/
def init_control (st : State) : State :=
  let st1 := { st with current_tick := MAX_STEPS - 1, selected_row := 0, page := PageType.MAIN }
  load_preset st1 st1.preset_index

/-- The state after power-up with empty flash: `init_presets` then
`init_control`. -/
def init_state : State :=
  init_control (init_presets zero_state)

/-- The states reachable from initialization through the handlers of
`process_event`: grid presses, grid holds, clock ticks (`step`, reached both
from `MAIN_CLOCK_RECEIVED` and from the `CLOCKTIMER` timed event), rotation
(`MAIN_CLOCK_RECEIVED` in RotateIn mode) and the front button. The remaining
timer events (`SPEEDTIMER`, `CLOCKOUTTIMER`, `GATETIMER`) only touch timer
hardware and output pins, leaving this state unchanged. -/
inductive Reach : State → Prop where
  | init : Reach init_state
  | press (st : State) (x y : ℕ) (onp : Bool) :
      Reach st → Reach (process_grid_press st x y onp)
  | held (st : State) (x y : ℕ) : Reach st → Reach (process_grid_held st x y)
  | tick (st : State) : Reach st → Reach (step st)
  | rotate (st : State) : Reach st →
      st.p.config.input_config = InputConfig.ROTATE → Reach (rotate_clocks st)
  | front (st : State) : Reach st → Reach (toggle_config_page st)

/-!
## Projection infrastructure

`update_row` only rewrites the row array; every other `State` field projects
through it unchanged. These rfl-lemmas let `simp` push projections through
the operation definitions.
-/

@[simp]
theorem update_row_row (st : State) (r : ℕ) (f : row_params_t → row_params_t) (i : ℕ) :
    (update_row st r f).p.row i = if i = r then f (st.p.row i) else st.p.row i := rfl

@[simp]
theorem update_row_config (st : State) (r : ℕ) (f : row_params_t → row_params_t) :
    (update_row st r f).p.config = st.p.config := rfl

@[simp]
theorem update_row_flash (st : State) (r : ℕ) (f : row_params_t → row_params_t) :
    (update_row st r f).flash = st.flash := rfl

@[simp]
theorem update_row_preset_index (st : State) (r : ℕ) (f : row_params_t → row_params_t) :
    (update_row st r f).preset_index = st.preset_index := rfl

@[simp]
theorem update_row_page (st : State) (r : ℕ) (f : row_params_t → row_params_t) :
    (update_row st r f).page = st.page := rfl

@[simp]
theorem update_row_selected_row (st : State) (r : ℕ) (f : row_params_t → row_params_t) :
    (update_row st r f).selected_row = st.selected_row := rfl

@[simp]
theorem update_row_ec (st : State) (r : ℕ) (f : row_params_t → row_params_t) :
    (update_row st r f).ec = st.ec := rfl

@[simp]
theorem update_row_do_error (st : State) (r : ℕ) (f : row_params_t → row_params_t) :
    (update_row st r f).do_error = st.do_error := rfl

@[simp]
theorem update_row_do_blink_error (st : State) (r : ℕ) (f : row_params_t → row_params_t) :
    (update_row st r f).do_blink_error = st.do_blink_error := rfl

@[simp]
theorem update_row_error_ref_row (st : State) (r : ℕ) (f : row_params_t → row_params_t) :
    (update_row st r f).error_ref_row = st.error_ref_row := rfl

@[simp]
theorem update_row_current_tick (st : State) (r : ℕ) (f : row_params_t → row_params_t) :
    (update_row st r f).current_tick = st.current_tick := rfl

@[simp]
theorem update_row_selected_preset (st : State) (r : ℕ) (f : row_params_t → row_params_t) :
    (update_row st r f).selected_preset = st.selected_preset := rfl

@[simp]
theorem update_row_is_preset_saved (st : State) (r : ℕ) (f : row_params_t → row_params_t) :
    (update_row st r f).is_preset_saved = st.is_preset_saved := rfl


/-- The trigger table `set_trigger_bits` actually stores into row `r`,
written as a standalone value: the base table of `d`, combined (when an
operator is set) with the compared row's table, which is the just-written
base table when the row compares against itself. -/
def stb_triggers (st : State) (r d : ℕ) : List Bool :=
  if (st.p.row r).logic.type > 0 then
    apply_logic_op (st.p.row r).logic.type (base_triggers d)
      (if (st.p.row r).logic.compared_row - 1 = r then base_triggers d
       else (st.p.row ((st.p.row r).logic.compared_row - 1)).triggers)
  else base_triggers d

theorem set_trigger_bits_row (st : State) (r d i : ℕ) :
    (set_trigger_bits st r d).p.row i =
      if i = r then { st.p.row i with triggers := stb_triggers st r d } else st.p.row i := by
  unfold set_trigger_bits stb_triggers
  simp only [update_row_row]
  by_cases hi : i = r
  · subst hi
    by_cases ht : (st.p.row i).logic.type > 0
    · simp only [if_pos rfl, ht, ite_true, gt_iff_lt]
      by_cases hc : (st.p.row i).logic.compared_row - 1 = i <;> simp [hc, ht]
    · simp [ht]
  · by_cases ht : (st.p.row r).logic.type > 0 <;> simp [hi, ht]

@[simp]
theorem set_trigger_bits_config (st : State) (r d : ℕ) :
    (set_trigger_bits st r d).p.config = st.p.config := by
  unfold set_trigger_bits; dsimp only; split <;> rfl

@[simp]
theorem set_trigger_bits_flash (st : State) (r d : ℕ) :
    (set_trigger_bits st r d).flash = st.flash := by
  unfold set_trigger_bits; dsimp only; split <;> rfl

@[simp]
theorem set_trigger_bits_preset_index (st : State) (r d : ℕ) :
    (set_trigger_bits st r d).preset_index = st.preset_index := by
  unfold set_trigger_bits; dsimp only; split <;> rfl

@[simp]
theorem set_trigger_bits_page (st : State) (r d : ℕ) :
    (set_trigger_bits st r d).page = st.page := by
  unfold set_trigger_bits; dsimp only; split <;> rfl

@[simp]
theorem set_trigger_bits_selected_row (st : State) (r d : ℕ) :
    (set_trigger_bits st r d).selected_row = st.selected_row := by
  unfold set_trigger_bits; dsimp only; split <;> rfl

@[simp]
theorem set_trigger_bits_ec (st : State) (r d : ℕ) :
    (set_trigger_bits st r d).ec = st.ec := by
  unfold set_trigger_bits; dsimp only; split <;> rfl

@[simp]
theorem set_trigger_bits_do_error (st : State) (r d : ℕ) :
    (set_trigger_bits st r d).do_error = st.do_error := by
  unfold set_trigger_bits; dsimp only; split <;> rfl

@[simp]
theorem set_trigger_bits_do_blink_error (st : State) (r d : ℕ) :
    (set_trigger_bits st r d).do_blink_error = st.do_blink_error := by
  unfold set_trigger_bits; dsimp only; split <;> rfl

@[simp]
theorem set_trigger_bits_error_ref_row (st : State) (r d : ℕ) :
    (set_trigger_bits st r d).error_ref_row = st.error_ref_row := by
  unfold set_trigger_bits; dsimp only; split <;> rfl

@[simp]
theorem set_trigger_bits_current_tick (st : State) (r d : ℕ) :
    (set_trigger_bits st r d).current_tick = st.current_tick := by
  unfold set_trigger_bits; dsimp only; split <;> rfl

@[simp]
theorem set_trigger_bits_selected_preset (st : State) (r d : ℕ) :
    (set_trigger_bits st r d).selected_preset = st.selected_preset := by
  unfold set_trigger_bits; dsimp only; split <;> rfl

@[simp]
theorem set_trigger_bits_is_preset_saved (st : State) (r d : ℕ) :
    (set_trigger_bits st r d).is_preset_saved = st.is_preset_saved := by
  unfold set_trigger_bits; dsimp only; split <;> rfl

@[simp]
theorem set_trigger_bits_position (st : State) (r d i : ℕ) :
    ((set_trigger_bits st r d).p.row i).position = (st.p.row i).position := by
  rw [set_trigger_bits_row]; split <;> rfl

@[simp]
theorem set_trigger_bits_division (st : State) (r d i : ℕ) :
    ((set_trigger_bits st r d).p.row i).division = (st.p.row i).division := by
  rw [set_trigger_bits_row]; split <;> rfl

@[simp]
theorem set_trigger_bits_logic (st : State) (r d i : ℕ) :
    ((set_trigger_bits st r d).p.row i).logic = (st.p.row i).logic := by
  rw [set_trigger_bits_row]; split <;> rfl

@[simp]
theorem set_trigger_bits_offset (st : State) (r d i : ℕ) :
    ((set_trigger_bits st r d).p.row i).offset = (st.p.row i).offset := by
  rw [set_trigger_bits_row]; split <;> rfl

@[simp]
theorem set_trigger_bits_blink (st : State) (r d i : ℕ) :
    ((set_trigger_bits st r d).p.row i).blink = (st.p.row i).blink := by
  rw [set_trigger_bits_row]; split <;> rfl

/-- `recompute_row`'s stored trigger table as a standalone value. -/
def rec_triggers (st : State) (i : ℕ) : List Bool :=
  stb_triggers
    (update_row st i (fun rw => { rw with division := get_division st rw.position })) i
    (get_division st ((st.p.row i).position))

theorem recompute_row_row (st : State) (i j : ℕ) :
    (recompute_row st i).p.row j =
      if j = i then
        { st.p.row j with division := get_division st ((st.p.row j).position),
                          triggers := rec_triggers st i }
      else st.p.row j := by
  unfold recompute_row rec_triggers
  dsimp only
  rw [set_trigger_bits_row]
  by_cases hj : j = i
  · subst hj; simp
  · simp [hj]

@[simp]
theorem recompute_row_config (st : State) (i : ℕ) :
    (recompute_row st i).p.config = st.p.config := by
  simp [recompute_row]

@[simp]
theorem recompute_row_flash (st : State) (i : ℕ) :
    (recompute_row st i).flash = st.flash := by
  simp [recompute_row]

@[simp]
theorem recompute_row_preset_index (st : State) (i : ℕ) :
    (recompute_row st i).preset_index = st.preset_index := by
  simp [recompute_row]

@[simp]
theorem recompute_row_page (st : State) (i : ℕ) :
    (recompute_row st i).page = st.page := by
  simp [recompute_row]

@[simp]
theorem recompute_row_selected_row (st : State) (i : ℕ) :
    (recompute_row st i).selected_row = st.selected_row := by
  simp [recompute_row]

@[simp]
theorem recompute_row_ec (st : State) (i : ℕ) :
    (recompute_row st i).ec = st.ec := by
  simp [recompute_row]

@[simp]
theorem recompute_row_do_error (st : State) (i : ℕ) :
    (recompute_row st i).do_error = st.do_error := by
  simp [recompute_row]

@[simp]
theorem recompute_row_do_blink_error (st : State) (i : ℕ) :
    (recompute_row st i).do_blink_error = st.do_blink_error := by
  simp [recompute_row]

@[simp]
theorem recompute_row_error_ref_row (st : State) (i : ℕ) :
    (recompute_row st i).error_ref_row = st.error_ref_row := by
  simp [recompute_row]

@[simp]
theorem recompute_row_current_tick (st : State) (i : ℕ) :
    (recompute_row st i).current_tick = st.current_tick := by
  simp [recompute_row]

@[simp]
theorem recompute_row_selected_preset (st : State) (i : ℕ) :
    (recompute_row st i).selected_preset = st.selected_preset := by
  simp [recompute_row]

@[simp]
theorem recompute_row_is_preset_saved (st : State) (i : ℕ) :
    (recompute_row st i).is_preset_saved = st.is_preset_saved := by
  simp [recompute_row]

@[simp]
theorem recompute_row_position (st : State) (i j : ℕ) :
    ((recompute_row st i).p.row j).position = (st.p.row j).position := by
  rw [recompute_row_row]; split <;> rfl

@[simp]
theorem recompute_row_logic (st : State) (i j : ℕ) :
    ((recompute_row st i).p.row j).logic = (st.p.row j).logic := by
  rw [recompute_row_row]; split <;> rfl

@[simp]
theorem recompute_row_offset (st : State) (i j : ℕ) :
    ((recompute_row st i).p.row j).offset = (st.p.row j).offset := by
  rw [recompute_row_row]; split <;> rfl

@[simp]
theorem recompute_row_blink (st : State) (i j : ℕ) :
    ((recompute_row st i).p.row j).blink = (st.p.row j).blink := by
  rw [recompute_row_row]; split <;> rfl

theorem recompute_row_division (st : State) (i j : ℕ) :
    ((recompute_row st i).p.row j).division =
      if j = i then get_division st ((st.p.row j).position) else (st.p.row j).division := by
  rw [recompute_row_row]; split <;> rfl

/-- Projections preserved by every step of a fold are preserved by the fold. -/
theorem foldl_proj {α β : Type _} (f : State → α → State) (g : State → β)
    (h : ∀ s a, g (f s a) = g s) :
    ∀ (l : List α) (s : State), g (l.foldl f s) = g s := by
  intro l
  induction l with
  | nil => intro s; rfl
  | cons a t ih => intro s; rw [List.foldl_cons, ih, h]

/-- Predicates preserved by every step of a fold are preserved by the fold. -/
theorem foldl_pres {α : Type _} (f : State → α → State) (P : State → Prop)
    (h : ∀ s a, P s → P (f s a)) :
    ∀ (l : List α) (s : State), P s → P (l.foldl f s) := by
  intro l
  induction l with
  | nil => intro s hs; exact hs
  | cons a t ih => intro s hs; rw [List.foldl_cons]; exact ih _ (h _ _ hs)

/-- The checking-mode downward walk never touches the state. -/
theorem nested_down_jc_state (r : ℕ) (fuel : ℕ) :
    ∀ (st : State) (c : ℕ), (nested_down r true fuel st c).2 = st := by
  induction fuel with
  | zero => intro st c; rfl
  | succ n ih =>
    intro st c
    unfold nested_down
    by_cases h0 : c = 0
    · simp [h0]
    · by_cases hr : c = r + 1 <;> simp [h0, hr, ih]

/-- Projections preserved by `recompute_row` pass through the downward walk. -/
theorem nested_down_proj {β : Type _} (g : State → β)
    (hg : ∀ s i, g (recompute_row s i) = g s) (r : ℕ) (fuel : ℕ) :
    ∀ (st : State) (c : ℕ), g (nested_down r false fuel st c).2 = g st := by
  induction fuel with
  | zero => intro st c; rfl
  | succ n ih =>
    intro st c
    unfold nested_down
    by_cases h0 : c = 0
    · simp [h0]
    · simp [h0, ih, hg]

/-- The checking mode of `process_nested_change` never touches the state. -/
theorem process_nested_change_jc (st : State) (r : ℕ) :
    (process_nested_change st r true).2 = st := by
  unfold process_nested_change
  dsimp only
  rw [nested_down_jc_state]
  simp

/-- Projections preserved by `recompute_row` pass through
`process_nested_change` in either mode. -/
theorem process_nested_change_proj {β : Type _} (g : State → β)
    (hg : ∀ s i, g (recompute_row s i) = g s) (st : State) (r : ℕ) (jc : Bool) :
    g (process_nested_change st r jc).2 = g st := by
  unfold process_nested_change
  dsimp only
  cases jc
  · rw [nested_down_proj g hg]
    exact foldl_proj recompute_row g hg _ _
  · rw [nested_down_jc_state]
    simp

@[simp]
theorem process_nested_change_config (st : State) (r : ℕ) (jc : Bool) :
    (process_nested_change st r jc).2.p.config = st.p.config :=
  process_nested_change_proj (fun s => s.p.config) (by simp) st r jc

@[simp]
theorem process_nested_change_flash (st : State) (r : ℕ) (jc : Bool) :
    (process_nested_change st r jc).2.flash = st.flash :=
  process_nested_change_proj (fun s => s.flash) (by simp) st r jc

@[simp]
theorem process_nested_change_preset_index (st : State) (r : ℕ) (jc : Bool) :
    (process_nested_change st r jc).2.preset_index = st.preset_index :=
  process_nested_change_proj (fun s => s.preset_index) (by simp) st r jc

@[simp]
theorem process_nested_change_page (st : State) (r : ℕ) (jc : Bool) :
    (process_nested_change st r jc).2.page = st.page :=
  process_nested_change_proj (fun s => s.page) (by simp) st r jc

@[simp]
theorem process_nested_change_selected_row (st : State) (r : ℕ) (jc : Bool) :
    (process_nested_change st r jc).2.selected_row = st.selected_row :=
  process_nested_change_proj (fun s => s.selected_row) (by simp) st r jc

@[simp]
theorem process_nested_change_ec (st : State) (r : ℕ) (jc : Bool) :
    (process_nested_change st r jc).2.ec = st.ec :=
  process_nested_change_proj (fun s => s.ec) (by simp) st r jc

@[simp]
theorem process_nested_change_do_error (st : State) (r : ℕ) (jc : Bool) :
    (process_nested_change st r jc).2.do_error = st.do_error :=
  process_nested_change_proj (fun s => s.do_error) (by simp) st r jc

@[simp]
theorem process_nested_change_do_blink_error (st : State) (r : ℕ) (jc : Bool) :
    (process_nested_change st r jc).2.do_blink_error = st.do_blink_error :=
  process_nested_change_proj (fun s => s.do_blink_error) (by simp) st r jc

@[simp]
theorem process_nested_change_error_ref_row (st : State) (r : ℕ) (jc : Bool) :
    (process_nested_change st r jc).2.error_ref_row = st.error_ref_row :=
  process_nested_change_proj (fun s => s.error_ref_row) (by simp) st r jc

@[simp]
theorem process_nested_change_current_tick (st : State) (r : ℕ) (jc : Bool) :
    (process_nested_change st r jc).2.current_tick = st.current_tick :=
  process_nested_change_proj (fun s => s.current_tick) (by simp) st r jc

@[simp]
theorem process_nested_change_selected_preset (st : State) (r : ℕ) (jc : Bool) :
    (process_nested_change st r jc).2.selected_preset = st.selected_preset :=
  process_nested_change_proj (fun s => s.selected_preset) (by simp) st r jc

@[simp]
theorem process_nested_change_is_preset_saved (st : State) (r : ℕ) (jc : Bool) :
    (process_nested_change st r jc).2.is_preset_saved = st.is_preset_saved :=
  process_nested_change_proj (fun s => s.is_preset_saved) (by simp) st r jc

@[simp]
theorem process_nested_change_position (st : State) (r : ℕ) (jc : Bool) (j : ℕ) :
    ((process_nested_change st r jc).2.p.row j).position = (st.p.row j).position :=
  process_nested_change_proj (fun s => (s.p.row j).position) (by simp) st r jc

@[simp]
theorem process_nested_change_logic (st : State) (r : ℕ) (jc : Bool) (j : ℕ) :
    ((process_nested_change st r jc).2.p.row j).logic = (st.p.row j).logic :=
  process_nested_change_proj (fun s => (s.p.row j).logic) (by simp) st r jc

@[simp]
theorem process_nested_change_offset (st : State) (r : ℕ) (jc : Bool) (j : ℕ) :
    ((process_nested_change st r jc).2.p.row j).offset = (st.p.row j).offset :=
  process_nested_change_proj (fun s => (s.p.row j).offset) (by simp) st r jc

@[simp]
theorem process_nested_change_blink (st : State) (r : ℕ) (jc : Bool) (j : ℕ) :
    ((process_nested_change st r jc).2.p.row j).blink = (st.p.row j).blink :=
  process_nested_change_proj (fun s => (s.p.row j).blink) (by simp) st r jc

@[simp]
theorem fire_gate_ec (st : State) (r : ℕ) : (fire_gate st r).ec = st.ec := rfl

@[simp]
theorem fire_gate_do_error (st : State) (r : ℕ) : (fire_gate st r).do_error = st.do_error := rfl

@[simp]
theorem fire_gate_do_blink_error (st : State) (r : ℕ) :
    (fire_gate st r).do_blink_error = st.do_blink_error := rfl

@[simp]
theorem fire_gate_error_ref_row (st : State) (r : ℕ) :
    (fire_gate st r).error_ref_row = st.error_ref_row := rfl

@[simp]
theorem fire_gate_config (st : State) (r : ℕ) : (fire_gate st r).p.config = st.p.config := rfl

@[simp]
theorem fire_gate_flash (st : State) (r : ℕ) : (fire_gate st r).flash = st.flash := rfl

@[simp]
theorem fire_gate_page (st : State) (r : ℕ) : (fire_gate st r).page = st.page := rfl

@[simp]
theorem fire_gate_current_tick (st : State) (r : ℕ) :
    (fire_gate st r).current_tick = st.current_tick := rfl

@[simp]
theorem fire_gate_position (st : State) (r j : ℕ) :
    ((fire_gate st r).p.row j).position = (st.p.row j).position := by
  unfold fire_gate
  rw [update_row_row]
  split <;> rfl

@[simp]
theorem fire_gate_division (st : State) (r j : ℕ) :
    ((fire_gate st r).p.row j).division = (st.p.row j).division := by
  unfold fire_gate
  rw [update_row_row]
  split <;> rfl

@[simp]
theorem fire_gate_logic (st : State) (r j : ℕ) :
    ((fire_gate st r).p.row j).logic = (st.p.row j).logic := by
  unfold fire_gate
  rw [update_row_row]
  split <;> rfl

@[simp]
theorem clock_ec (st : State) : (clock st).ec = st.ec := by
  unfold clock
  dsimp only
  rw [foldl_proj _ (fun s => s.ec) (by intro s i; dsimp only; split <;> simp)]

@[simp]
theorem clock_do_error (st : State) : (clock st).do_error = st.do_error := by
  unfold clock
  dsimp only
  rw [foldl_proj _ (fun s => s.do_error) (by intro s i; dsimp only; split <;> simp)]

@[simp]
theorem clock_do_blink_error (st : State) : (clock st).do_blink_error = st.do_blink_error := by
  unfold clock
  dsimp only
  rw [foldl_proj _ (fun s => s.do_blink_error) (by intro s i; dsimp only; split <;> simp)]

@[simp]
theorem clock_error_ref_row (st : State) : (clock st).error_ref_row = st.error_ref_row := by
  unfold clock
  dsimp only
  rw [foldl_proj _ (fun s => s.error_ref_row) (by intro s i; dsimp only; split <;> simp)]

@[simp]
theorem clock_config (st : State) : (clock st).p.config = st.p.config := by
  unfold clock
  dsimp only
  rw [foldl_proj _ (fun s => s.p.config) (by intro s i; dsimp only; split <;> simp)]

@[simp]
theorem clock_flash (st : State) : (clock st).flash = st.flash := by
  unfold clock
  dsimp only
  rw [foldl_proj _ (fun s => s.flash) (by intro s i; dsimp only; split <;> simp)]

@[simp]
theorem clock_page (st : State) : (clock st).page = st.page := by
  unfold clock
  dsimp only
  rw [foldl_proj _ (fun s => s.page) (by intro s i; dsimp only; split <;> simp)]

@[simp]
theorem clock_current_tick (st : State) :
    (clock st).current_tick = (st.current_tick + 1) % MAX_STEPS := by
  unfold clock
  dsimp only
  rw [foldl_proj _ (fun s => s.current_tick) (by intro s i; dsimp only; split <;> simp)]

@[simp]
theorem clock_position (st : State) (j : ℕ) :
    ((clock st).p.row j).position = (st.p.row j).position := by
  unfold clock
  dsimp only
  rw [foldl_proj _ (fun s => (s.p.row j).position) (by intro s i; dsimp only; split <;> simp)]

@[simp]
theorem clock_division (st : State) (j : ℕ) :
    ((clock st).p.row j).division = (st.p.row j).division := by
  unfold clock
  dsimp only
  rw [foldl_proj _ (fun s => (s.p.row j).division) (by intro s i; dsimp only; split <;> simp)]

@[simp]
theorem clock_logic (st : State) (j : ℕ) :
    ((clock st).p.row j).logic = (st.p.row j).logic := by
  unfold clock
  dsimp only
  rw [foldl_proj _ (fun s => (s.p.row j).logic) (by intro s i; dsimp only; split <;> simp)]

@[simp]
theorem fire_error_alerts_flash (st : State) :
    (fire_error_alerts st).flash = st.flash := by
  unfold fire_error_alerts; dsimp only; split <;> (try split) <;> rfl

@[simp]
theorem fire_error_alerts_page (st : State) :
    (fire_error_alerts st).page = st.page := by
  unfold fire_error_alerts; dsimp only; split <;> (try split) <;> rfl

@[simp]
theorem fire_error_alerts_config (st : State) :
    (fire_error_alerts st).p.config = st.p.config := by
  unfold fire_error_alerts; dsimp only; split <;> (try split) <;> rfl

@[simp]
theorem fire_error_alerts_row (st : State) (j : ℕ) :
    (fire_error_alerts st).p.row j = st.p.row j := by
  unfold fire_error_alerts; dsimp only; split <;> (try split) <;> rfl

@[simp]
theorem fire_error_alerts_current_tick (st : State) :
    (fire_error_alerts st).current_tick = st.current_tick := by
  unfold fire_error_alerts; dsimp only; split <;> (try split) <;> rfl

@[simp]
theorem load_preset_ec (st : State) (k : ℕ) : (load_preset st k).ec = st.ec := rfl

@[simp]
theorem load_preset_do_error (st : State) (k : ℕ) :
    (load_preset st k).do_error = st.do_error := rfl

@[simp]
theorem load_preset_do_blink_error (st : State) (k : ℕ) :
    (load_preset st k).do_blink_error = st.do_blink_error := rfl

@[simp]
theorem load_preset_error_ref_row (st : State) (k : ℕ) :
    (load_preset st k).error_ref_row = st.error_ref_row := rfl

@[simp]
theorem load_preset_current_tick (st : State) (k : ℕ) :
    (load_preset st k).current_tick = st.current_tick := rfl

@[simp]
theorem load_preset_page (st : State) (k : ℕ) : (load_preset st k).page = st.page := rfl

@[simp]
theorem load_preset_p (st : State) (k : ℕ) : (load_preset st k).p = st.flash k := rfl

@[simp]
theorem load_preset_flash (st : State) (k : ℕ) : (load_preset st k).flash = st.flash := rfl

@[simp]
theorem load_preset_selected_preset (st : State) (k : ℕ) :
    (load_preset st k).selected_preset = k := rfl

@[simp]
theorem save_preset_ec (st : State) : (save_preset st).ec = st.ec := rfl

@[simp]
theorem save_preset_do_error (st : State) : (save_preset st).do_error = st.do_error := rfl

@[simp]
theorem save_preset_page (st : State) : (save_preset st).page = st.page := rfl

@[simp]
theorem save_preset_p (st : State) : (save_preset st).p = st.p := rfl

@[simp]
theorem toggle_config_page_ec (st : State) : (toggle_config_page st).ec = st.ec := rfl

@[simp]
theorem toggle_config_page_do_error (st : State) :
    (toggle_config_page st).do_error = st.do_error := rfl

@[simp]
theorem toggle_config_page_p (st : State) : (toggle_config_page st).p = st.p := rfl

@[simp]
theorem toggle_config_page_flash (st : State) : (toggle_config_page st).flash = st.flash := rfl

@[simp]
theorem set_logic_depth_ec (st : State) (d : LogicDepth) : (set_logic_depth st d).ec = st.ec := rfl

@[simp]
theorem set_logic_depth_do_error (st : State) (d : LogicDepth) :
    (set_logic_depth st d).do_error = st.do_error := rfl

@[simp]
theorem set_logic_depth_row (st : State) (d : LogicDepth) (j : ℕ) :
    (set_logic_depth st d).p.row j = st.p.row j := rfl

@[simp]
theorem set_logic_depth_flash (st : State) (d : LogicDepth) :
    (set_logic_depth st d).flash = st.flash := rfl

@[simp]
theorem set_logic_depth_clock_divs (st : State) (d : LogicDepth) :
    (set_logic_depth st d).p.config.clock_divs = st.p.config.clock_divs := rfl

@[simp]
theorem config_input_press_ec (st : State) (x y : ℕ) (onp : Bool) :
    (config_input_press st x y onp).ec = st.ec := by
  unfold config_input_press; split <;> rfl

@[simp]
theorem config_input_press_do_error (st : State) (x y : ℕ) (onp : Bool) :
    (config_input_press st x y onp).do_error = st.do_error := by
  unfold config_input_press; split <;> rfl

@[simp]
theorem config_input_press_row (st : State) (x y : ℕ) (onp : Bool) (j : ℕ) :
    (config_input_press st x y onp).p.row j = st.p.row j := by
  unfold config_input_press; split <;> rfl

@[simp]
theorem config_input_press_flash (st : State) (x y : ℕ) (onp : Bool) :
    (config_input_press st x y onp).flash = st.flash := by
  unfold config_input_press; split <;> rfl

@[simp]
theorem config_input_press_clock_divs (st : State) (x y : ℕ) (onp : Bool) :
    (config_input_press st x y onp).p.config.clock_divs = st.p.config.clock_divs := by
  unfold config_input_press; split <;> rfl

@[simp]
theorem config_input_press_logic_depth (st : State) (x y : ℕ) (onp : Bool) :
    (config_input_press st x y onp).p.config.logic_depth = st.p.config.logic_depth := by
  unfold config_input_press; split <;> rfl

@[simp]
theorem config_input_press_page (st : State) (x y : ℕ) (onp : Bool) :
    (config_input_press st x y onp).page = st.page := by
  unfold config_input_press; split <;> rfl

@[simp]
theorem reset_all_logic_ec (st : State) : (reset_all_logic st).ec = st.ec := by
  unfold reset_all_logic
  rw [foldl_proj _ (fun s => s.ec) (by intro s i; dsimp only; simp)]

@[simp]
theorem reset_all_logic_do_error (st : State) :
    (reset_all_logic st).do_error = st.do_error := by
  unfold reset_all_logic
  rw [foldl_proj _ (fun s => s.do_error) (by intro s i; dsimp only; simp)]

@[simp]
theorem reset_all_logic_do_blink_error (st : State) :
    (reset_all_logic st).do_blink_error = st.do_blink_error := by
  unfold reset_all_logic
  rw [foldl_proj _ (fun s => s.do_blink_error) (by intro s i; dsimp only; simp)]

@[simp]
theorem reset_all_logic_error_ref_row (st : State) :
    (reset_all_logic st).error_ref_row = st.error_ref_row := by
  unfold reset_all_logic
  rw [foldl_proj _ (fun s => s.error_ref_row) (by intro s i; dsimp only; simp)]

@[simp]
theorem reset_all_logic_config (st : State) : (reset_all_logic st).p.config = st.p.config := by
  unfold reset_all_logic
  rw [foldl_proj _ (fun s => s.p.config) (by intro s i; dsimp only; simp)]

@[simp]
theorem reset_all_logic_flash (st : State) : (reset_all_logic st).flash = st.flash := by
  unfold reset_all_logic
  rw [foldl_proj _ (fun s => s.flash) (by intro s i; dsimp only; simp)]

@[simp]
theorem reset_all_logic_page (st : State) : (reset_all_logic st).page = st.page := by
  unfold reset_all_logic
  rw [foldl_proj _ (fun s => s.page) (by intro s i; dsimp only; simp)]

@[simp]
theorem set_bits_for_logic_update_ec (st : State) (x y : ℕ) (b : Bool) :
    (set_bits_for_logic_update st x y b).ec = st.ec := by
  simp [set_bits_for_logic_update]

@[simp]
theorem set_bits_for_logic_update_do_error (st : State) (x y : ℕ) (b : Bool) :
    (set_bits_for_logic_update st x y b).do_error = st.do_error := by
  simp [set_bits_for_logic_update]

@[simp]
theorem set_bits_for_logic_update_do_blink_error (st : State) (x y : ℕ) (b : Bool) :
    (set_bits_for_logic_update st x y b).do_blink_error = st.do_blink_error := by
  simp [set_bits_for_logic_update]

@[simp]
theorem set_bits_for_logic_update_error_ref_row (st : State) (x y : ℕ) (b : Bool) :
    (set_bits_for_logic_update st x y b).error_ref_row = st.error_ref_row := by
  simp [set_bits_for_logic_update]

@[simp]
theorem set_bits_for_logic_update_config (st : State) (x y : ℕ) (b : Bool) :
    (set_bits_for_logic_update st x y b).p.config = st.p.config := by
  simp [set_bits_for_logic_update]

@[simp]
theorem set_bits_for_logic_update_flash (st : State) (x y : ℕ) (b : Bool) :
    (set_bits_for_logic_update st x y b).flash = st.flash := by
  simp [set_bits_for_logic_update]

@[simp]
theorem set_bits_for_logic_update_page (st : State) (x y : ℕ) (b : Bool) :
    (set_bits_for_logic_update st x y b).page = st.page := by
  simp [set_bits_for_logic_update]

@[simp]
theorem set_bits_for_logic_update_selected_row (st : State) (x y : ℕ) (b : Bool) :
    (set_bits_for_logic_update st x y b).selected_row = st.selected_row := by
  simp [set_bits_for_logic_update]

@[simp]
theorem set_bits_for_logic_update_selected_preset (st : State) (x y : ℕ) (b : Bool) :
    (set_bits_for_logic_update st x y b).selected_preset = st.selected_preset := by
  simp [set_bits_for_logic_update]

@[simp]
theorem set_bits_for_logic_update_current_tick (st : State) (x y : ℕ) (b : Bool) :
    (set_bits_for_logic_update st x y b).current_tick = st.current_tick := by
  simp [set_bits_for_logic_update]

@[simp]
theorem set_bits_for_logic_update_preset_index (st : State) (x y : ℕ) (b : Bool) :
    (set_bits_for_logic_update st x y b).preset_index = st.preset_index := by
  simp [set_bits_for_logic_update]

@[simp]
theorem set_bits_for_logic_update_position (st : State) (x y : ℕ) (b : Bool) (j : ℕ) :
    ((set_bits_for_logic_update st x y b).p.row j).position = (st.p.row j).position := by
  unfold set_bits_for_logic_update
  dsimp only
  rw [set_trigger_bits_position]
  simp only [update_row_row]
  split <;> (try split) <;> rfl

@[simp]
theorem logic_press_ec (st : State) (x y : ℕ) : (logic_press st x y).ec = st.ec := by
  unfold logic_press
  dsimp only
  split <;> (try split) <;> (try split) <;> (try split) <;> (try split) <;> (try split) <;>
    (try split) <;> simp

@[simp]
theorem division_press_ec (st : State) (x y : ℕ) : (division_press st x y).ec = st.ec := by
  unfold division_press
  dsimp only
  split
  · rw [foldl_proj _ (fun s => s.ec) (by intro s i; dsimp only; split <;> simp)]
    simp
  · simp

@[simp]
theorem division_press_do_error (st : State) (x y : ℕ) :
    (division_press st x y).do_error = st.do_error := by
  unfold division_press
  dsimp only
  split
  · rw [foldl_proj _ (fun s => s.do_error) (by intro s i; dsimp only; split <;> simp)]
    simp
  · simp

@[simp]
theorem process_grid_press_ec (st : State) (x y : ℕ) (onp : Bool) :
    (process_grid_press st x y onp).ec = st.ec := by
  unfold process_grid_press
  dsimp only
  split <;> (try split) <;> (try split) <;> (try split) <;> (try split) <;> (try split) <;>
    (try split) <;> simp

theorem logic_press_do_error_mono (st : State) (x y : ℕ) (h : st.do_error = true) :
    (logic_press st x y).do_error = true := by
  unfold logic_press
  dsimp only
  split <;> (try split) <;> (try split) <;> (try split) <;> (try split) <;> (try split) <;>
    (try split) <;> simp [h]

theorem process_grid_press_do_error_mono (st : State) (x y : ℕ) (onp : Bool)
    (h : st.do_error = true) :
    (process_grid_press st x y onp).do_error = true := by
  unfold process_grid_press
  dsimp only
  split <;> (try split) <;> (try split) <;> (try split) <;> (try split) <;> (try split) <;>
    (try split) <;> simp [h, logic_press_do_error_mono, division_press_do_error]

/-!
## Trigger evaluation (claims C1, C2)
-/

/-- `baseFires(divisor, phase)`: the value control.c computes for each entry
of the base trigger table, `(phase + 1) % divisor == 0`. -/
def base_fires (d phase : ℕ) : Bool :=
  (phase + 1) % d == 0

theorem base_triggers_length (d : ℕ) : (base_triggers d).length = MAX_STEPS := by
  simp [base_triggers]

theorem base_triggers_getD (d i : ℕ) (h : i < MAX_STEPS) :
    (base_triggers d).getD i false = base_fires d i := by
  rw [List.getD_eq_getElem?_getD, List.getElem?_eq_getElem (by simp [base_triggers_length, h])]
  simp [base_triggers, base_fires, h]

theorem zipWith_base_getD (f : Bool → Bool → Bool) (l1 l2 : List Bool) (i : ℕ)
    (h1 : l1.length = MAX_STEPS) (h2 : l2.length = MAX_STEPS) (h : i < MAX_STEPS) :
    (List.zipWith f l1 l2).getD i false = f (l1.getD i false) (l2.getD i false) := by
  have hl : (List.zipWith f l1 l2).length = MAX_STEPS := by simp [h1, h2]
  rw [List.getD_eq_getElem?_getD, List.getElem?_eq_getElem (by rw [hl]; exact h)]
  rw [List.getD_eq_getElem?_getD, List.getElem?_eq_getElem (by rw [h1]; exact h)]
  rw [List.getD_eq_getElem?_getD, List.getElem?_eq_getElem (by rw [h2]; exact h)]
  simp

/-- A state exercising the fourth operator: row 0 has division 4 and operator
value 3 (named `NOR` in control.h's `logical_type`) targeting row 1; row 1 has
division 3, no logic edge, and a freshly recomputed base trigger table. -/
def c1_state : State :=
  { zero_state with p := { config := zero_preset.config, row := fun i =>
      if i = 0 then { zero_row with division := 4, logic := { type := 3, compared_row := 2 } }
      else if i = 1 then { zero_row with division := 3, triggers := base_triggers 3 }
      else zero_row } }

/-- C1 counterexample: for row 0 (operator `NOR` = value 3, division 4)
targeting edge-free row 1 (division 3) at phase 0, both base fires are false,
so the claimed `NOR` truth-table entry `¬a ∧ ¬b` is true — but the recomputed
trigger is false: `set_trigger_bits` implements `!=` (XOR) for value 3, and no
operator computes `¬a ∧ ¬b`. -/
theorem C1_counterexample :
    (c1_state.p.row 0).logic.type = 3 ∧
    (c1_state.p.row 0).logic.compared_row = 1 + 1 ∧
    (c1_state.p.row 1).logic.compared_row = 0 ∧
    (c1_state.p.row 1).triggers = base_triggers ((c1_state.p.row 1).division) ∧
    ((!base_fires ((c1_state.p.row 0).division) 0) &&
      (!base_fires ((c1_state.p.row 1).division) 0)) = true ∧
    ((set_trigger_bits c1_state 0 ((c1_state.p.row 0).division)).p.row 0).triggers.getD 0 false
      = false := by decide

/-- C1 (amended): for every row `r` whose logic edge targets an edge-free row
`t` (whose trigger table is its base table) and every phase below
`MAX_STEPS`, the recomputed trigger of `r` is: `a` for operator 0 (NONE),
`a ∧ b` for operator 1 (AND), `a ∨ b` for operator 2 (OR), and `a ≠ b` (XOR)
for operator 3 — the value control.h names `NOR`; no operator yields
`¬a ∧ ¬b`. Here `a = baseFires(division r, phase)`,
`b = baseFires(division t, phase)`. -/
theorem C1_operator_table (st : State) (r t phase : ℕ)
    (hrt : (st.p.row r).logic.compared_row = t + 1)
    (hne : t ≠ r)
    (htr : (st.p.row t).triggers = base_triggers ((st.p.row t).division))
    (hph : phase < MAX_STEPS) :
    (((st.p.row r).logic.type = 0 →
        ((set_trigger_bits st r ((st.p.row r).division)).p.row r).triggers.getD phase false =
          base_fires ((st.p.row r).division) phase) ∧
     ((st.p.row r).logic.type = 1 →
        ((set_trigger_bits st r ((st.p.row r).division)).p.row r).triggers.getD phase false =
          (base_fires ((st.p.row r).division) phase &&
           base_fires ((st.p.row t).division) phase)) ∧
     ((st.p.row r).logic.type = 2 →
        ((set_trigger_bits st r ((st.p.row r).division)).p.row r).triggers.getD phase false =
          (base_fires ((st.p.row r).division) phase ||
           base_fires ((st.p.row t).division) phase)) ∧
     ((st.p.row r).logic.type = 3 →
        ((set_trigger_bits st r ((st.p.row r).division)).p.row r).triggers.getD phase false =
          (base_fires ((st.p.row r).division) phase !=
           base_fires ((st.p.row t).division) phase))) := by
  have hrow : ((set_trigger_bits st r ((st.p.row r).division)).p.row r).triggers =
      stb_triggers st r ((st.p.row r).division) := by
    rw [set_trigger_bits_row]; simp
  have hc : (st.p.row r).logic.compared_row - 1 = t := by omega
  refine ⟨?_, ?_, ?_, ?_⟩ <;> intro ht
  · rw [hrow]
    unfold stb_triggers
    rw [ht]
    rw [if_neg (by omega : ¬((0 : ℕ) > 0))]
    exact base_triggers_getD _ _ hph
  · rw [hrow]
    unfold stb_triggers
    rw [ht, hc, if_neg hne, htr]
    simp only [show (1 : ℕ) > 0 from by omega, if_pos]
    unfold apply_logic_op
    rw [zipWith_base_getD _ _ _ _ (base_triggers_length _) (base_triggers_length _) hph]
    rw [base_triggers_getD _ _ hph, base_triggers_getD _ _ hph]
  · rw [hrow]
    unfold stb_triggers
    rw [ht, hc, if_neg hne, htr]
    simp only [show (2 : ℕ) > 0 from by omega, if_pos]
    unfold apply_logic_op
    rw [zipWith_base_getD _ _ _ _ (base_triggers_length _) (base_triggers_length _) hph]
    rw [base_triggers_getD _ _ hph, base_triggers_getD _ _ hph]
  · rw [hrow]
    unfold stb_triggers
    rw [ht, hc, if_neg hne, htr]
    simp only [show (3 : ℕ) > 0 from by omega, if_pos]
    unfold apply_logic_op
    rw [zipWith_base_getD _ _ _ _ (base_triggers_length _) (base_triggers_length _) hph]
    rw [base_triggers_getD _ _ hph, base_triggers_getD _ _ hph]

/-- Witness for C1's amended theorem at a concrete state: row 0 with operator
3 over rows of divisions 4 and 3 at phase 0 recomputes to XOR of the base
fires. -/
theorem C1_operator_table_witness :
    (c1_state.p.row 0).logic.compared_row = 1 + 1 ∧
    ((c1_state.p.row 0).logic.type = 3 →
      ((set_trigger_bits c1_state 0 ((c1_state.p.row 0).division)).p.row 0).triggers.getD 0 false =
        (base_fires ((c1_state.p.row 0).division) 0 !=
         base_fires ((c1_state.p.row 1).division) 0)) :=
  ⟨by decide,
   (C1_operator_table c1_state 0 1 0 (by decide) (by decide) rfl (by decide)).2.2.2⟩

/-- Whether a row with divisor `d` and no logic edge fires when the shared
tick counter (which `clock` advances modulo `MAX_STEPS`) stands at
`t % MAX_STEPS`: its base trigger table is read at the counter value. -/
def fire_at (d t : ℕ) : Bool :=
  (base_triggers d).getD (t % MAX_STEPS) false

/-- The number of fires of a divisor-`d`, edge-free row in the window of `d`
consecutive ticks starting at tick `a`. -/
def fires_in_window (d a : ℕ) : ℕ :=
  (List.range d).countP (fun k => fire_at d (a + k))

/-- C2 counterexample: divisor 7 lies in `[1, 128]`, but the window of 7
consecutive ticks starting at tick 126 — which straddles the tick counter's
wrap from 127 back to 0 — contains no fire at all, because 7 does not divide
`MAX_STEPS = 128`. -/
theorem C2_counterexample : 1 ≤ 7 ∧ 7 ≤ 128 ∧ fires_in_window 7 126 = 0 := by decide

theorem fire_at_eq (d t : ℕ) (hdvd : d ∣ MAX_STEPS) :
    fire_at d t = ((t + 1) % d == 0) := by
  unfold fire_at
  rw [base_triggers_getD _ _ (Nat.mod_lt _ (by unfold MAX_STEPS; omega))]
  unfold base_fires
  have h1 : (t % MAX_STEPS + 1) % d = (t + 1) % d := by
    conv_rhs => rw [Nat.add_mod]
    rw [Nat.add_mod, Nat.mod_mod_of_dvd t hdvd]
  rw [h1]

theorem window_count (d a : ℕ) (hd : 0 < d) :
    (List.range d).countP (fun k => (a + k + 1) % d == 0) = 1 := by
  obtain ⟨q, m, hqm, hm⟩ : ∃ q m, d * q + m = a + 1 ∧ m < d :=
    ⟨(a + 1) / d, (a + 1) % d, Nat.div_add_mod _ _, Nat.mod_lt _ hd⟩
  set k0 := (d - m) % d with hk0
  have hk0lt : k0 < d := Nat.mod_lt _ hd
  have hmem : (a + k0 + 1) % d = 0 := by
    by_cases hz : m = 0
    · have hz0 : k0 = 0 := by simp [hk0, hz, Nat.mod_self]
      have h1 : a + k0 + 1 = d * q := by omega
      rw [h1, Nat.mul_mod_right]
    · have hk0e : k0 = d - m := by rw [hk0]; exact Nat.mod_eq_of_lt (by omega)
      have h2 : d * q + d = d * (q + 1) := by ring
      have h1 : a + k0 + 1 = d * (q + 1) := by omega
      rw [h1, Nat.mul_mod_right]
  have huniq : ∀ k, k < d → (a + k + 1) % d = 0 → k = k0 := by
    intro k hk hmod
    have d1 : (d : ℤ) ∣ ((a : ℤ) + k + 1) := by
      exact_mod_cast Nat.dvd_of_mod_eq_zero hmod
    have d2 : (d : ℤ) ∣ ((a : ℤ) + k0 + 1) := by
      exact_mod_cast Nat.dvd_of_mod_eq_zero hmem
    have d3 : (d : ℤ) ∣ ((k : ℤ) - (k0 : ℤ)) := by
      have h4 := dvd_sub d1 d2
      have h5 : ((a : ℤ) + k + 1) - ((a : ℤ) + k0 + 1) = (k : ℤ) - k0 := by ring
      rwa [h5] at h4
    have habs : |(k : ℤ) - (k0 : ℤ)| < d := by
      rw [abs_lt]
      constructor <;> omega
    have h0 := Int.eq_zero_of_abs_lt_dvd d3 habs
    omega
  have hcong : (List.range d).countP (fun k => (a + k + 1) % d == 0)
      = (List.range d).countP (fun k => k == k0) := by
    apply List.countP_congr
    intro k hk
    rw [List.mem_range] at hk
    constructor
    · intro h
      have := huniq k hk (by simpa using h)
      simpa using this
    · intro h
      have hke : k = k0 := by simpa using h
      subst hke
      simpa using hmem
  rw [hcong, ← List.count_eq_countP]
  exact List.count_eq_one_of_mem (List.nodup_range d) (List.mem_range.mpr hk0lt)

/-- C2 (amended): for every divisor `d` that divides `MAX_STEPS = 128` (in
particular every power-of-two divisor of the table) and every window of `d`
consecutive ticks of the advancing (mod-128) tick counter, an edge-free row
with divisor `d` fires exactly once. For divisors not dividing 128 the wrap
of the counter breaks the law (see `C2_counterexample`). -/
theorem C2_base_period (d a : ℕ) (hd : 0 < d) (hdvd : d ∣ MAX_STEPS) :
    fires_in_window d a = 1 := by
  unfold fires_in_window
  have hcong : (List.range d).countP (fun k => fire_at d (a + k))
      = (List.range d).countP (fun k => (a + k + 1) % d == 0) := by
    apply List.countP_congr
    intro k _
    rw [fire_at_eq d (a + k) hdvd]
  rw [hcong]
  exact window_count d a hd

/-- Witness for C2's amended theorem: divisor 8 divides 128, and the window
of 8 ticks starting at 126 (straddling the wrap) contains exactly one fire. -/
theorem C2_base_period_witness :
    0 < 8 ∧ (8 ∣ MAX_STEPS) ∧ fires_in_window 8 126 = 1 :=
  ⟨by decide, by decide, C2_base_period 8 126 (by decide) (by decide)⟩

/-!
## Further projections for the edit and preset handlers (claims C3, C4, C6, C7, C9)
-/

@[simp]
theorem save_preset_selected_preset (st : State) :
    (save_preset st).selected_preset = st.selected_preset := rfl

@[simp]
theorem toggle_config_page_selected_preset (st : State) :
    (toggle_config_page st).selected_preset = st.selected_preset := rfl

@[simp]
theorem set_logic_depth_selected_preset (st : State) (d : LogicDepth) :
    (set_logic_depth st d).selected_preset = st.selected_preset := rfl

@[simp]
theorem config_input_press_selected_preset (st : State) (x y : ℕ) (onp : Bool) :
    (config_input_press st x y onp).selected_preset = st.selected_preset := by
  unfold config_input_press; split <;> rfl

@[simp]
theorem reset_all_logic_selected_preset (st : State) :
    (reset_all_logic st).selected_preset = st.selected_preset := by
  unfold reset_all_logic
  rw [foldl_proj _ (fun s => s.selected_preset) (by intro s i; dsimp only; simp)]

@[simp]
theorem logic_press_selected_preset (st : State) (x y : ℕ) :
    (logic_press st x y).selected_preset = st.selected_preset := by
  unfold logic_press
  dsimp only
  split <;> (try split) <;> (try split) <;> (try split) <;> (try split) <;> (try split) <;>
    (try split) <;> simp

@[simp]
theorem division_press_selected_preset (st : State) (x y : ℕ) :
    (division_press st x y).selected_preset = st.selected_preset := by
  unfold division_press
  dsimp only
  split
  · rw [foldl_proj _ (fun s => s.selected_preset) (by intro s i; dsimp only; split <;> simp)]
    simp
  · simp

@[simp]
theorem logic_press_page (st : State) (x y : ℕ) : (logic_press st x y).page = st.page := by
  unfold logic_press
  dsimp only
  split <;> (try split) <;> (try split) <;> (try split) <;> (try split) <;> (try split) <;>
    (try split) <;> simp

@[simp]
theorem division_press_page (st : State) (x y : ℕ) : (division_press st x y).page = st.page := by
  unfold division_press
  dsimp only
  split
  · rw [foldl_proj _ (fun s => s.page) (by intro s i; dsimp only; split <;> simp)]
    simp
  · simp

@[simp]
theorem logic_press_config (st : State) (x y : ℕ) :
    (logic_press st x y).p.config = st.p.config := by
  unfold logic_press
  dsimp only
  split <;> (try split) <;> (try split) <;> (try split) <;> (try split) <;> (try split) <;>
    (try split) <;> simp

@[simp]
theorem division_press_config (st : State) (x y : ℕ) :
    (division_press st x y).p.config = st.p.config := by
  unfold division_press
  dsimp only
  split
  · rw [foldl_proj _ (fun s => s.p.config) (by intro s i; dsimp only; split <;> simp)]
    simp
  · simp

@[simp]
theorem logic_press_flash (st : State) (x y : ℕ) :
    (logic_press st x y).flash = st.flash := by
  unfold logic_press
  dsimp only
  split <;> (try split) <;> (try split) <;> (try split) <;> (try split) <;> (try split) <;>
    (try split) <;> simp

@[simp]
theorem division_press_flash (st : State) (x y : ℕ) :
    (division_press st x y).flash = st.flash := by
  unfold division_press
  dsimp only
  split
  · rw [foldl_proj _ (fun s => s.flash) (by intro s i; dsimp only; split <;> simp)]
    simp
  · simp

/-- On the CONFIG page a grid press never raises or clears an alert. -/
theorem process_grid_press_config_do_error (st : State) (x y : ℕ) (onp : Bool)
    (h : st.page = PageType.CONFIG) :
    (process_grid_press st x y onp).do_error = st.do_error := by
  unfold process_grid_press
  rw [if_pos h]
  dsimp only
  split <;> (try split) <;> (try split) <;> (try split) <;> (try split) <;> simp

/-!
## Claim C8: preset loading
-/

/-- A state in which an alert is live and the tick counter is mid-pattern. -/
def c8_state : State :=
  { init_state with do_error := true, ec := 2, do_blink_error := true,
                    error_ref_row := 4, current_tick := 5 }

/-- C8 counterexample: loading preset 3 from an Alerting state leaves the
alert machine Alerting (`do_error` still true, counter still 2, highlighted
row still 4) and leaves the tick counter at 5 — `load_preset` neither clears
the alert state to Idle nor resets any phase counter. -/
theorem C8_counterexample :
    c8_state.do_error = true ∧
    (load_preset c8_state 3).do_error = true ∧
    (load_preset c8_state 3).ec = 2 ∧
    (load_preset c8_state 3).error_ref_row = 4 ∧
    (load_preset c8_state 3).current_tick = 5 := by decide

/-- C8 (amended): `load_preset(slot)` replaces the in-memory Config and rows
wholesale with the stored preset and records the slot — and leaves the shared
tick counter and the entire alert state unchanged (the rows hold no
individual phase counters; the only phase state is the global tick). -/
theorem C8_load_preset (st : State) (slot : ℕ) :
    (load_preset st slot).p = st.flash slot ∧
    (load_preset st slot).selected_preset = slot ∧
    (load_preset st slot).current_tick = st.current_tick ∧
    (load_preset st slot).do_error = st.do_error ∧
    (load_preset st slot).ec = st.ec ∧
    (load_preset st slot).do_blink_error = st.do_blink_error ∧
    (load_preset st slot).error_ref_row = st.error_ref_row :=
  ⟨rfl, rfl, rfl, rfl, rfl, rfl, rfl⟩

/-!
## Claim C9: out-of-range input
-/

/-- C9 counterexample: a main-page logic press with the out-of-range row
index `y = 9` is not rejected: it stores the edge (targeting the nonexistent
row 9, compared_row = 10) into row 0 — in the C code this also reads past the
end of the row array. The handler has no bounds check on `y`. -/
theorem C9_counterexample :
    init_state.page = PageType.MAIN ∧
    8 ≤ 9 ∧
    (init_state.p.row 0).logic.compared_row = 0 ∧
    ((process_grid_press init_state 1 9 true).p.row 0).logic.compared_row = 10 := by decide

/-- C9 (amended): the slot indices that grid presses and grid holds can
select are always in `[0, MAX_PRESETS)` by construction (`x - 3` with
`2 < x < 13`), so no slot bounds check is needed; row indices, however, are
not checked (see `C9_counterexample`). -/
theorem C9_slot_bound (st : State) (x y : ℕ) (onp : Bool) :
    ((process_grid_press st x y onp).selected_preset = st.selected_preset ∨
      (process_grid_press st x y onp).selected_preset < MAX_PRESETS) ∧
    ((process_grid_held st x y).selected_preset = st.selected_preset ∨
      (process_grid_held st x y).selected_preset < MAX_PRESETS) := by
  constructor
  · unfold process_grid_press
    dsimp only
    split <;> (try split) <;> (try split) <;> (try split) <;> (try split) <;> (try split) <;>
        (try split) <;> simp <;>
      first
        | (left; rfl)
        | (right; unfold MAX_PRESETS; omega)
  · unfold process_grid_held
    dsimp only
    split <;> (try split) <;> (try split) <;> simp <;>
      first
        | (left; rfl)
        | (right; unfold MAX_PRESETS; omega)

/-!
## Claim C4: rejected edits leave the Row Store untouched
-/

@[simp]
theorem get_division_update_row (st : State) (r : ℕ) (f : row_params_t → row_params_t)
    (pos : ℕ) : get_division (update_row st r f) pos = get_division st pos := rfl

theorem logic_press_reject_rows (st : State) (x y : ℕ)
    (h0 : st.do_error = false)
    (hdiv : (st.p.row st.selected_row).division =
      get_division st ((st.p.row st.selected_row).position))
    (herr : (logic_press st x y).do_error = true) :
    (logic_press st x y).p.row = st.p.row := by
  unfold logic_press at herr ⊢
  dsimp only at herr ⊢
  by_cases hdep : st.p.config.logic_depth = LogicDepth.SINGLE
  · rw [if_pos hdep] at herr ⊢
    by_cases hcirc : is_circularly_referenced st y = true
    · rw [if_pos hcirc]
    · rw [if_neg hcirc] at herr ⊢
      by_cases hsel : st.selected_row = y
      · rw [if_pos hsel]
      · exfalso
        rw [if_neg hsel, set_bits_for_logic_update_do_error, h0] at herr
        exact Bool.false_ne_true herr
  · rw [if_neg hdep] at herr ⊢
    by_cases h1 : is_logically_referenced st y false = true
    · rw [if_pos h1]
    · rw [if_neg h1] at herr ⊢
      by_cases h2 : is_circularly_referenced st y = true
      · rw [if_pos h2]
      · rw [if_neg h2] at herr ⊢
        by_cases h3 : ((process_nested_change st y true).1 = true ∨ st.selected_row = y ∨
            (get_total_logical_refs st > GATE_OUTS - 2 ∧
              ((st.p.row st.selected_row).logic.type == x &&
                (st.p.row st.selected_row).logic.compared_row == y + 1) = false ∧
              ¬(st.p.row st.selected_row).logic.compared_row = y + 1))
        · rw [if_pos h3]
        · rw [if_neg h3] at herr ⊢
          by_cases hwto : ((st.p.row st.selected_row).logic.type == x &&
              (st.p.row st.selected_row).logic.compared_row == y + 1) = true
          · simp only [if_pos hwto] at herr ⊢
            split
            next h4 =>
              exfalso
              rw [if_pos h4] at herr
              rw [process_nested_change_do_error] at herr
              exact absurd (show st.do_error = true from herr) (by simp [h0])
            next h4 =>
              funext i
              dsimp only
              simp only [update_row_row]
              by_cases hi : i = st.selected_row
              · subst hi
                simp only [eq_self_iff_true, if_true, get_division_update_row]
                rw [← hdiv]
              · simp only [if_neg hi]
          · simp only [if_neg hwto] at herr ⊢
            split
            next h4 =>
              exfalso
              rw [if_pos h4] at herr
              rw [process_nested_change_do_error] at herr
              exact absurd (show st.do_error = true from herr) (by simp [h0])
            next h4 =>
              funext i
              dsimp only
              simp only [update_row_row]
              by_cases hi : i = st.selected_row
              · subst hi
                simp only [eq_self_iff_true, if_true, get_division_update_row]
                rw [← hdiv]
              · simp only [if_neg hi]

/-- C4 (confirmed): any grid press that raises an alert (i.e. is rejected as
a logic edit, the only way `do_error` can turn on) leaves every row — its
position, division, offset, trigger table, blink flag and logic fields —
exactly as before the press. The hypothesis that the selected row's division
agrees with the divisor table (true in every reachable state) covers the
tentative NESTED edge whose rollback rewrites the division from the table. -/
theorem C4_reject_state_unchanged (st : State) (x y : ℕ) (onp : Bool)
    (h0 : st.do_error = false)
    (hdiv : (st.p.row st.selected_row).division =
      get_division st ((st.p.row st.selected_row).position))
    (herr : (process_grid_press st x y onp).do_error = true) :
    (process_grid_press st x y onp).p.row = st.p.row := by
  by_cases hpage : st.page = PageType.CONFIG
  · exfalso
    rw [process_grid_press_config_do_error st x y onp hpage, h0] at herr
    exact Bool.false_ne_true herr
  · unfold process_grid_press at herr ⊢
    rw [if_neg hpage] at herr ⊢
    by_cases honp : onp = false
    · rw [if_pos honp]
    · rw [if_neg honp] at herr ⊢
      dsimp only at herr ⊢
      by_cases hx0 : x = 0
      · rw [if_pos hx0, if_neg (show ¬(0 < x ∧ x < 4) from by omega),
          if_neg (show ¬(3 < x ∧ x < 16) from by omega)]
      · by_cases hxl : 0 < x ∧ x < 4
        · rw [if_neg hx0, if_pos hxl, if_neg (show ¬(3 < x ∧ x < 16) from by omega)] at herr ⊢
          exact logic_press_reject_rows st x y h0 hdiv herr
        · by_cases hxd : 3 < x ∧ x < 16
          · exfalso
            rw [if_neg hx0, if_neg hxl, if_pos hxd, division_press_do_error] at herr
            exact absurd (show st.do_error = true from herr) (by simp [h0])
          · exfalso
            rw [if_neg hx0, if_neg hxl, if_neg hxd] at herr
            exact absurd (show st.do_error = true from herr) (by simp [h0])

/-- Witness for C4 at a concrete rejected edit: pressing AND on the selected
row itself (self-reference) from the freshly initialised state is rejected
and the row array is unchanged. -/
theorem C4_reject_state_unchanged_witness :
    (process_grid_press init_state 1 0 true).do_error = true ∧
    (process_grid_press init_state 1 0 true).p.row = init_state.p.row :=
  ⟨by decide,
   C4_reject_state_unchanged init_state 1 0 true (by decide) (by decide) (by decide)⟩

/-!
## Claims C6, C7: the alert state machine
-/

/-- One tick while Alerting below the clearing threshold: the counter
advances and the alert stays pending. -/
theorem step_alerting (st : State) (k : ℕ) (h : st.do_error = true) (hk : st.ec = k)
    (hlt : k + 1 < 5) :
    (step st).do_error = true ∧ (step st).ec = k + 1 ∧
    (step st).error_ref_row = st.error_ref_row := by
  unfold step fire_error_alerts
  have h1 : (clock st).do_error = true := by rw [clock_do_error, h]
  have h2 : (clock st).ec = k := by rw [clock_ec, hk]
  have hmod : (k + 1) % 256 = k + 1 := Nat.mod_eq_of_lt (by omega)
  rw [h1]
  dsimp only
  rw [h2, hmod, if_pos rfl, if_neg (show ¬(k + 1 = 5) from by omega)]
  exact ⟨rfl, rfl, by rw [clock_error_ref_row]⟩

/-- The fifth tick while Alerting: everything is cleared. -/
theorem step_clears (st : State) (h : st.do_error = true) (hk : st.ec = 4) :
    (step st).do_error = false ∧ (step st).ec = 0 ∧
    (step st).do_blink_error = false ∧ (step st).error_ref_row = 0 := by
  unfold step fire_error_alerts
  have h1 : (clock st).do_error = true := by rw [clock_do_error, h]
  have h2 : (clock st).ec = 4 := by rw [clock_ec, hk]
  rw [h1]
  dsimp only
  rw [h2]
  norm_num

/-- C6 (confirmed): a rejection arriving in the Idle alert state (pending
flag off, counter 0 — the only Idle configuration the machine ever produces)
moves the machine to Alerting, and exactly 5 ticks later — not before — the
pending flag, the blink flag and the highlighted row are all cleared. -/
theorem C6_alert_auto_clear (st : State) (x y : ℕ) (onp : Bool)
    (hidle : st.do_error = false) (hec : st.ec = 0)
    (hrej : (process_grid_press st x y onp).do_error = true) :
    (process_grid_press st x y onp).ec = 0 ∧
    (step (process_grid_press st x y onp)).do_error = true ∧
    (step (step (process_grid_press st x y onp))).do_error = true ∧
    (step (step (step (process_grid_press st x y onp)))).do_error = true ∧
    (step (step (step (step (process_grid_press st x y onp))))).do_error = true ∧
    (step (step (step (step (step (process_grid_press st x y onp)))))).do_error = false ∧
    (step (step (step (step (step (process_grid_press st x y onp)))))).do_blink_error = false ∧
    (step (step (step (step (step (process_grid_press st x y onp)))))).error_ref_row = 0 ∧
    (step (step (step (step (step (process_grid_press st x y onp)))))).ec = 0 := by
  have e0 : (process_grid_press st x y onp).ec = 0 := by
    rw [process_grid_press_ec, hec]
  have e1 := step_alerting _ 0 hrej e0 (by omega)
  have e2 := step_alerting _ 1 e1.1 e1.2.1 (by omega)
  have e3 := step_alerting _ 2 e2.1 e2.2.1 (by omega)
  have e4 := step_alerting _ 3 e3.1 e3.2.1 (by omega)
  have e5 := step_clears _ e4.1 e4.2.1
  exact ⟨e0, e1.1, e2.1, e3.1, e4.1, e5.1, e5.2.2.1, e5.2.2.2, e5.2.1⟩

/-- Witness for C6: the self-reference rejection from the initial state,
followed by five ticks. -/
theorem C6_alert_auto_clear_witness :
    (process_grid_press init_state 1 0 true).do_error = true ∧
    (step (step (step (step (step (process_grid_press init_state 1 0 true)))))).do_error
      = false :=
  ⟨by decide,
   (C6_alert_auto_clear init_state 1 0 true (by decide) (by decide) (by decide)).2.2.2.2.2.1⟩

/-- After the first rejection (self-reference on row 0) and three ticks: the
alert is live with phase counter 3. -/
def c7_mid : State :=
  step (step (step (process_grid_press init_state 1 0 true)))

/-- A second rejection (self-reference on row 2) arriving while Alerting. -/
def c7_rearmed : State :=
  process_grid_press (process_grid_press c7_mid 0 2 true) 1 2 true

set_option maxRecDepth 4000 in
/-- C7 counterexample: the rejection that arrives while Alerting (counter at
3) does replace the offending row (now 3 = row 2 one-based) but does NOT
restart the phase counter: it stays at 3, and the alert clears after only 2
further ticks instead of the full 5 the claim promises. -/
theorem C7_counterexample :
    c7_mid.do_error = true ∧ c7_mid.ec = 3 ∧
    c7_rearmed.do_error = true ∧ c7_rearmed.error_ref_row = 3 ∧ c7_rearmed.ec = 3 ∧
    (step (step c7_rearmed)).do_error = false := by decide

/-- C7 (amended): a rejection that occurs while the alert machine is already
Alerting replaces the offending row with the new one (re-arm, not queue) and
leaves the alert pending, but the phase counter is NOT restarted: no grid
press ever modifies `ec`, so the alert still clears 5 ticks after the
original Idle-to-Alerting transition. Stated for the self-reference
rejection in Single depth. -/
theorem C7_rearm_keeps_counter (st : State) (x y : ℕ)
    (hpage : st.page = PageType.MAIN)
    (hdepth : st.p.config.logic_depth = LogicDepth.SINGLE)
    (hsel : st.selected_row = y) (hx : 0 < x) (hx4 : x < 4) (hy : y < 255)
    (halert : st.do_error = true) :
    (process_grid_press st x y true).do_error = true ∧
    (process_grid_press st x y true).ec = st.ec ∧
    (process_grid_press st x y true).error_ref_row = y + 1 := by
  unfold process_grid_press
  rw [if_neg (show ¬st.page = PageType.CONFIG from by simp [hpage])]
  rw [if_neg (show ¬(true = false) from by simp)]
  dsimp only
  rw [if_neg (show ¬x = 0 from by omega), if_pos (show 0 < x ∧ x < 4 from ⟨hx, hx4⟩),
    if_neg (show ¬(3 < x ∧ x < 16) from by omega)]
  unfold logic_press
  dsimp only
  rw [if_pos hdepth]
  by_cases hcirc : is_circularly_referenced st y = true
  · rw [if_pos hcirc]
    exact ⟨rfl, rfl, Nat.mod_eq_of_lt (by omega)⟩
  · rw [if_neg hcirc, if_pos hsel]
    refine ⟨rfl, rfl, ?_⟩
    rw [hsel]
    exact Nat.mod_eq_of_lt (by omega)

/-- Witness for C7's amended theorem: the second self-reference rejection
from an Alerting state keeps the counter and replaces the row. -/
theorem C7_rearm_keeps_counter_witness :
    (process_grid_press init_state 1 0 true).do_error = true ∧
    (process_grid_press (process_grid_press init_state 1 0 true) 1 0 true).ec
      = (process_grid_press init_state 1 0 true).ec ∧
    (process_grid_press (process_grid_press init_state 1 0 true) 1 0 true).error_ref_row
      = 0 + 1 :=
  ⟨by decide,
   (C7_rearm_keeps_counter (process_grid_press init_state 1 0 true) 1 0 (by decide) (by decide)
     (by decide) (by decide) (by decide) (by decide) (by decide)).2⟩

/-!
## Claim C5: the rotation has period 8
-/

theorem rotate_clocks_position (st : State) (i : ℕ) (hi : i < 8) :
    ((rotate_clocks st).p.row i).position = (st.p.row ((i + 1) % 8)).position := by
  unfold rotate_clocks
  dsimp only
  rw [show List.range GATE_OUTS = [0, 1, 2, 3, 4, 5, 6, 7] from rfl]
  simp only [List.foldl_cons, List.foldl_nil]
  interval_cases i <;>
    simp [set_trigger_bits_position, set_trigger_bits_row, update_row_row]

theorem rotate_clocks_division (st : State) (i : ℕ) (hi : i < 8) :
    ((rotate_clocks st).p.row i).division =
      get_division st ((st.p.row ((i + 1) % 8)).position) := by
  unfold rotate_clocks
  dsimp only
  rw [show List.range GATE_OUTS = [0, 1, 2, 3, 4, 5, 6, 7] from rfl]
  simp only [List.foldl_cons, List.foldl_nil]
  interval_cases i <;>
    simp [set_trigger_bits_division, set_trigger_bits_position, set_trigger_bits_row,
      update_row_row, get_division]

theorem rotate_clocks_config (st : State) : (rotate_clocks st).p.config = st.p.config := by
  unfold rotate_clocks
  dsimp only
  rw [foldl_proj _ (fun s => s.p.config) (by intro s i; dsimp only; split <;> simp)]

theorem rotate_iter_config (st : State) (n : ℕ) :
    ((rotate_clocks^[n]) st).p.config = st.p.config := by
  induction n with
  | zero => rfl
  | succ n ih => rw [Function.iterate_succ_apply', rotate_clocks_config, ih]

theorem rotate_iter_position (st : State) (n : ℕ) :
    ∀ i, i < 8 → (((rotate_clocks^[n]) st).p.row i).position =
      (st.p.row ((i + n) % 8)).position := by
  induction n with
  | zero =>
    intro i hi
    rw [Function.iterate_zero_apply, Nat.mod_eq_of_lt (show i + 0 < 8 from by omega),
      Nat.add_zero]
  | succ n ih =>
    intro i hi
    rw [Function.iterate_succ_apply', rotate_clocks_position _ i hi,
      ih ((i + 1) % 8) (Nat.mod_lt _ (by omega))]
    have : ((i + 1) % 8 + n) % 8 = (i + (n + 1)) % 8 := by omega
    rw [this]

/-- C5 (confirmed): under the reachable-state invariant that every row's
division agrees with the divisor table at its position, applying
`rotate_clocks` 8 times returns every row's (position, division) pair to its
pre-rotation value: one step is a cyclic shift of the 8 rows' assignments. -/
theorem C5_rotate_period (st : State)
    (hdiv : ∀ i, i < 8 → (st.p.row i).division = get_division st ((st.p.row i).position))
    (i : ℕ) (hi : i < 8) :
    (((rotate_clocks^[8]) st).p.row i).position = (st.p.row i).position ∧
    (((rotate_clocks^[8]) st).p.row i).division = (st.p.row i).division := by
  have hpos : (((rotate_clocks^[8]) st).p.row i).position = (st.p.row i).position := by
    rw [rotate_iter_position st 8 i hi]
    have : (i + 8) % 8 = i := by omega
    rw [this]
  refine ⟨hpos, ?_⟩
  rw [show (rotate_clocks^[8]) st = rotate_clocks ((rotate_clocks^[7]) st) from
    Function.iterate_succ_apply' rotate_clocks 7 st]
  rw [rotate_clocks_division _ i hi]
  rw [rotate_iter_position st 7 ((i + 1) % 8) (Nat.mod_lt _ (by omega))]
  have h78 : ((i + 1) % 8 + 7) % 8 = i := by omega
  rw [h78]
  have hgd : get_division ((rotate_clocks^[7]) st) ((st.p.row i).position) =
      get_division st ((st.p.row i).position) := by
    unfold get_division
    rw [rotate_iter_config]
  rw [hgd, ← hdiv i hi]

/-- Witness for C5 at the freshly initialised state and row 0. -/
theorem C5_rotate_period_witness :
    (((rotate_clocks^[8]) init_state).p.row 0).position = (init_state.p.row 0).position ∧
    (((rotate_clocks^[8]) init_state).p.row 0).division = (init_state.p.row 0).division :=
  C5_rotate_period init_state (by decide) 0 (by decide)

/-!
## Claim C3: Nested-depth edge capacity
-/

theorem countP_range_agree (p q : ℕ → Bool) (n : ℕ) (h : ∀ i, i < n → q i = p i) :
    (List.range n).countP q = (List.range n).countP p := by
  apply List.countP_congr
  intro i hi
  rw [List.mem_range] at hi
  rw [h i hi]

theorem countP_singleton_le (r : ℕ → Bool) (n : ℕ) : List.countP r [n] ≤ 1 := by
  simp only [List.countP_cons, List.countP_nil]
  split <;> omega

theorem countP_range_update_le (p q : ℕ → Bool) (n j : ℕ) (h : ∀ i, i ≠ j → q i = p i) :
    (List.range n).countP q ≤ (List.range n).countP p + 1 := by
  induction n with
  | zero => simp
  | succ n ih =>
    rw [List.range_succ, List.countP_append, List.countP_append]
    by_cases hn : n = j
    · have hagree : (List.range n).countP q = (List.range n).countP p :=
        countP_range_agree p q n (fun i hi => h i (by omega))
      have h1 := countP_singleton_le q n
      omega
    · have hqn : List.countP q [n] = List.countP p [n] := by
        simp only [List.countP_cons, List.countP_nil, h n hn]
      omega

theorem countP_range_update_le_of_false (p q : ℕ → Bool) (n j : ℕ)
    (h : ∀ i, i ≠ j → q i = p i) (hq : q j = false) :
    (List.range n).countP q ≤ (List.range n).countP p := by
  induction n with
  | zero => simp
  | succ n ih =>
    rw [List.range_succ, List.countP_append, List.countP_append]
    by_cases hn : n = j
    · have hagree : (List.range n).countP q = (List.range n).countP p :=
        countP_range_agree p q n (fun i hi => h i (by omega))
      have h1 : List.countP q [n] = 0 := by
        simp only [List.countP_cons, List.countP_nil]
        rw [hn, hq]
        simp
      omega
    · have hqn : List.countP q [n] = List.countP p [n] := by
        simp only [List.countP_cons, List.countP_nil, h n hn]
      omega

theorem countP_range_update_le_of_true (p q : ℕ → Bool) (n j : ℕ)
    (h : ∀ i, i ≠ j → q i = p i) (hp : p j = true) :
    (List.range n).countP q ≤ (List.range n).countP p := by
  induction n with
  | zero => simp
  | succ n ih =>
    rw [List.range_succ, List.countP_append, List.countP_append]
    by_cases hn : n = j
    · have hagree : (List.range n).countP q = (List.range n).countP p :=
        countP_range_agree p q n (fun i hi => h i (by omega))
      have h1 := countP_singleton_le q n
      have h2 : List.countP p [n] = 1 := by
        simp only [List.countP_cons, List.countP_nil]
        rw [hn, hp]
        simp
      omega
    · have hqn : List.countP q [n] = List.countP p [n] := by
        simp only [List.countP_cons, List.countP_nil, h n hn]
      omega

theorem refs_eq_of_rows (s1 s2 : State)
    (h : ∀ i, i < GATE_OUTS →
      (s1.p.row i).logic.compared_row = (s2.p.row i).logic.compared_row) :
    get_total_logical_refs s1 = get_total_logical_refs s2 := by
  unfold get_total_logical_refs
  apply countP_range_agree
  intro i hi
  rw [h i hi]

theorem refs_set_trigger_bits (st : State) (r d : ℕ) :
    get_total_logical_refs (set_trigger_bits st r d) = get_total_logical_refs st :=
  refs_eq_of_rows _ _ (fun i _ => by rw [set_trigger_bits_logic])

theorem refs_pnc (st : State) (r : ℕ) (b : Bool) :
    get_total_logical_refs (process_nested_change st r b).2 = get_total_logical_refs st :=
  refs_eq_of_rows _ _ (fun i _ => by rw [process_nested_change_logic])

theorem refs_division_press (st : State) (x y : ℕ) :
    get_total_logical_refs (division_press st x y) = get_total_logical_refs st := by
  unfold division_press
  dsimp only
  split
  · rw [foldl_proj _ get_total_logical_refs
      (by intro s i; split <;> first | rw [refs_set_trigger_bits] | rfl)]
    rw [refs_set_trigger_bits]
    exact refs_eq_of_rows _ _ (fun i _ => by simp only [update_row_row]; split <;> rfl)
  · rw [refs_pnc, refs_set_trigger_bits]
    exact refs_eq_of_rows _ _ (fun i _ => by simp only [update_row_row]; split <;> rfl)

theorem logic_press_refs_le (st : State) (x y : ℕ)
    (hdep : st.p.config.logic_depth = LogicDepth.NESTED)
    (hle : get_total_logical_refs st ≤ 7) :
    get_total_logical_refs (logic_press st x y) ≤ 7 := by
  unfold logic_press
  dsimp only
  rw [if_neg (show ¬st.p.config.logic_depth = LogicDepth.SINGLE from by simp [hdep])]
  by_cases h1 : is_logically_referenced st y false = true
  · rw [if_pos h1]; exact hle
  · rw [if_neg h1]
    by_cases h2 : is_circularly_referenced st y = true
    · rw [if_pos h2]; exact hle
    · rw [if_neg h2]
      by_cases h3 : ((process_nested_change st y true).1 = true ∨ st.selected_row = y ∨
          (get_total_logical_refs st > GATE_OUTS - 2 ∧
            ((st.p.row st.selected_row).logic.type == x &&
              (st.p.row st.selected_row).logic.compared_row == y + 1) = false ∧
            ¬(st.p.row st.selected_row).logic.compared_row = y + 1))
      · rw [if_pos h3]; exact hle
      · rw [if_neg h3]
        by_cases hwto : ((st.p.row st.selected_row).logic.type == x &&
            (st.p.row st.selected_row).logic.compared_row == y + 1) = true
        · simp only [if_pos hwto]
          split
          next h4 =>
            rw [refs_pnc]
            refine le_trans ?_ hle
            unfold get_total_logical_refs
            apply countP_range_update_le_of_false _ _ _ st.selected_row
            · intro i hij
              simp [update_row_row, hij]
            · simp [update_row_row]
          next h4 =>
            refine le_trans (le_of_eq (refs_eq_of_rows _ st ?_)) hle
            intro i hi
            dsimp only
            simp only [update_row_row]
            by_cases hij : i = st.selected_row
            · simp [hij]
            · simp [hij]
        · simp only [if_neg hwto]
          split
          next h4 =>
            rw [refs_pnc]
            by_cases hc : (st.p.row st.selected_row).logic.compared_row = 0
            · have h6 : get_total_logical_refs st ≤ 6 := by
                by_contra hgt
                apply h3
                right; right
                refine ⟨?_, by simpa using hwto, by rw [hc]; omega⟩
                show get_total_logical_refs st > 8 - 2
                omega
              refine le_trans ?_ (show get_total_logical_refs st + 1 ≤ 7 from by omega)
              unfold get_total_logical_refs
              apply countP_range_update_le _ _ _ st.selected_row
              intro i hij
              simp [update_row_row, hij]
            · refine le_trans ?_ hle
              unfold get_total_logical_refs
              apply countP_range_update_le_of_true _ _ _ st.selected_row
              · intro i hij
                simp [update_row_row, hij]
              · simpa using hc
          next h4 =>
            refine le_trans (le_of_eq (refs_eq_of_rows _ st ?_)) hle
            intro i hi
            dsimp only
            simp only [update_row_row]
            by_cases hij : i = st.selected_row
            · simp [hij]
            · simp [hij]

theorem press_main_page (st : State) (x y : ℕ) (onp : Bool)
    (hpage : st.page = PageType.MAIN) :
    (process_grid_press st x y onp).page = PageType.MAIN := by
  unfold process_grid_press
  rw [if_neg (show ¬st.page = PageType.CONFIG from by simp [hpage])]
  dsimp only
  split
  · exact hpage
  · split <;> (try split) <;> (try split) <;> simp [hpage]

theorem press_main_depth (st : State) (x y : ℕ) (onp : Bool)
    (hpage : st.page = PageType.MAIN) :
    (process_grid_press st x y onp).p.config.logic_depth = st.p.config.logic_depth := by
  unfold process_grid_press
  rw [if_neg (show ¬st.page = PageType.CONFIG from by simp [hpage])]
  dsimp only
  split
  · rfl
  · split <;> (try split) <;> (try split) <;> simp

theorem press_main_refs_le (st : State) (x y : ℕ) (onp : Bool)
    (hpage : st.page = PageType.MAIN)
    (hdep : st.p.config.logic_depth = LogicDepth.NESTED)
    (hle : get_total_logical_refs st ≤ 7) :
    get_total_logical_refs (process_grid_press st x y onp) ≤ 7 := by
  unfold process_grid_press
  rw [if_neg (show ¬st.page = PageType.CONFIG from by simp [hpage])]
  dsimp only
  split
  · exact hle
  · by_cases hx0 : x = 0
    · rw [if_pos hx0, if_neg (show ¬(0 < x ∧ x < 4) from by omega),
        if_neg (show ¬(3 < x ∧ x < 16) from by omega)]
      exact hle
    · by_cases hxl : 0 < x ∧ x < 4
      · rw [if_neg hx0, if_pos hxl, if_neg (show ¬(3 < x ∧ x < 16) from by omega)]
        exact logic_press_refs_le st x y hdep hle
      · by_cases hxd : 3 < x ∧ x < 16
        · rw [if_neg hx0, if_neg hxl, if_pos hxd, refs_division_press]
          exact hle
        · rw [if_neg hx0, if_neg hxl, if_neg hxd]
          exact hle

/-- C3 (amended): starting from any MAIN-page state in Nested depth whose
edge count is at most 7, every sequence of grid presses keeps the total
number of logic edges at or below 7 = GATE_OUTS - 1 (so at least one row
always has no outgoing edge). The bound 6 claimed by the spec is exceeded:
the capacity check `get_total_logical_refs() > GATE_OUTS - 2` only blocks a
new edge once 7 edges already exist. -/
theorem C3_nested_capacity (st : State) (presses : List (ℕ × ℕ × Bool))
    (hpage : st.page = PageType.MAIN)
    (hdep : st.p.config.logic_depth = LogicDepth.NESTED)
    (hle : get_total_logical_refs st ≤ 7) :
    get_total_logical_refs
      (presses.foldl (fun s e => process_grid_press s e.1 e.2.1 e.2.2) st) ≤ 7 := by
  have hmain := foldl_pres (fun s e => process_grid_press s e.1 e.2.1 e.2.2)
    (fun s => s.page = PageType.MAIN ∧ s.p.config.logic_depth = LogicDepth.NESTED ∧
      get_total_logical_refs s ≤ 7)
    (by
      rintro s e ⟨hp, hd, hl⟩
      refine ⟨press_main_page s e.1 e.2.1 e.2.2 hp, ?_, press_main_refs_le s e.1 e.2.1 e.2.2 hp hd hl⟩
      rw [press_main_depth s e.1 e.2.1 e.2.2 hp, hd])
    presses st ⟨hpage, hdep, hle⟩
  exact hmain.2.2

/-- The state after switching to NESTED depth on the config page (which
resets all logic) and returning to the main page. -/
def c3_nested_state : State :=
  toggle_config_page (process_grid_press (toggle_config_page init_state) 9 2 true)

/-- 14 accepted Nested edits: select row `i` and link it to row `i + 1` with
AND, for `i = 0..6`, building the 7-edge chain 0 -> 1 -> ... -> 7. -/
def c3_edit_presses : List (ℕ × ℕ) :=
  [(0, 0), (1, 1), (0, 1), (1, 2), (0, 2), (1, 3), (0, 3), (1, 4),
   (0, 4), (1, 5), (0, 5), (1, 6), (0, 6), (1, 7)]

/-- The state after those edits. -/
def c3_final : State :=
  c3_edit_presses.foldl (fun s e => process_grid_press s e.1 e.2 true) c3_nested_state

set_option maxRecDepth 8000 in
/-- C3 counterexample: from the default state, switching to Nested depth and
then performing the 14 presses above — every one of them accepted — yields 7
logic edges, exceeding the claimed bound of 6 (GATE_OUTS - 2). -/
theorem C3_counterexample :
    c3_nested_state.p.config.logic_depth = LogicDepth.NESTED ∧
    c3_nested_state.page = PageType.MAIN ∧
    get_total_logical_refs c3_nested_state = 0 ∧
    c3_final.p.config.logic_depth = LogicDepth.NESTED ∧
    get_total_logical_refs c3_final = 7 := by decide

/-- Witness for C3 at a concrete state and press list. -/
theorem C3_nested_capacity_witness :
    get_total_logical_refs ([((1 : ℕ), (1 : ℕ), true)].foldl
      (fun s e => process_grid_press s e.1 e.2.1 e.2.2) c3_nested_state) ≤ 7 :=
  C3_nested_capacity c3_nested_state [(1, 1, true)] (by decide) (by decide) (by decide)

/-!
## Claim C10: reachable positions and divisions stay in range
-/

/-- The well-formedness of one preset: every divisor-table entry is at least
1, and every real row's position selects a table entry (4..15) with a
division of at least 1. -/
def preset_ok (pd : preset_data_t) : Prop :=
  (∀ k, k < 12 → 1 ≤ pd.config.clock_divs.getD k 0) ∧
  (∀ i, i < GATE_OUTS →
    4 ≤ (pd.row i).position ∧ (pd.row i).position ≤ 15 ∧ 1 ≤ (pd.row i).division)

/-- The global invariant: the active preset and every stored preset are
well-formed. -/
def StateInv (st : State) : Prop :=
  preset_ok st.p ∧ ∀ s, preset_ok (st.flash s)

theorem get_division_ge_one (st : State) (pos : ℕ)
    (ht : ∀ k, k < 12 → 1 ≤ st.p.config.clock_divs.getD k 0)
    (h4 : 4 ≤ pos) (h15 : pos ≤ 15) : 1 ≤ get_division st pos := by
  unfold get_division
  exact ht (pos - 4) (by omega)

theorem preset_ok_congr (p1 p2 : preset_data_t)
    (hc : p1.config.clock_divs = p2.config.clock_divs)
    (hr : ∀ i, i < GATE_OUTS →
      (p1.row i).position = (p2.row i).position ∧ (p1.row i).division = (p2.row i).division) :
    preset_ok p2 → preset_ok p1 := by
  rintro ⟨ht, hrow⟩
  constructor
  · intro k hk
    rw [hc]
    exact ht k hk
  · intro i hi
    obtain ⟨hp, hd⟩ := hr i hi
    rw [hp, hd]
    exact hrow i hi

theorem inv_set_trigger_bits (st : State) (r d : ℕ) (h : StateInv st) :
    StateInv (set_trigger_bits st r d) := by
  refine ⟨preset_ok_congr _ st.p (by rw [set_trigger_bits_config]) ?_ h.1, ?_⟩
  · intro i hi
    exact ⟨set_trigger_bits_position st r d i, set_trigger_bits_division st r d i⟩
  · rw [set_trigger_bits_flash]
    exact h.2

theorem inv_recompute_row (st : State) (j : ℕ) (h : StateInv st) :
    StateInv (recompute_row st j) := by
  refine ⟨⟨?_, ?_⟩, ?_⟩
  · intro k hk
    rw [recompute_row_config]
    exact h.1.1 k hk
  · intro i hi
    rw [recompute_row_position, recompute_row_division]
    obtain ⟨h4, h15, hd⟩ := h.1.2 i hi
    refine ⟨h4, h15, ?_⟩
    split
    · exact get_division_ge_one st _ h.1.1 h4 h15
    · exact hd
  · rw [recompute_row_flash]
    exact h.2

theorem inv_nested_down (r : ℕ) (jc : Bool) (fuel : ℕ) :
    ∀ (st : State) (c : ℕ), StateInv st → StateInv (nested_down r jc fuel st c).2 := by
  induction fuel with
  | zero => intro st c h; exact h
  | succ n ih =>
    intro st c h
    unfold nested_down
    by_cases h0 : c = 0
    · simp only [h0, if_pos rfl]
      exact h
    · rw [if_neg h0]
      cases jc
      · rw [if_neg Bool.false_ne_true]
        exact ih _ _ (inv_recompute_row _ _ h)
      · rw [if_pos rfl]
        split
        · exact h
        · exact ih _ _ h

theorem inv_pnc (st : State) (r : ℕ) (jc : Bool) (h : StateInv st) :
    StateInv (process_nested_change st r jc).2 := by
  unfold process_nested_change
  dsimp only
  apply inv_nested_down
  cases jc
  · rw [if_neg Bool.false_ne_true]
    exact foldl_pres recompute_row StateInv (fun s a hs => inv_recompute_row s a hs) _ st h
  · rw [if_pos rfl]
    exact h

theorem foldl_pres_mem {α : Type _} (f : State → α → State) (P : State → Prop) :
    ∀ (l : List α), (∀ s a, a ∈ l → P s → P (f s a)) → ∀ s, P s → P (l.foldl f s) := by
  intro l
  induction l with
  | nil => intro _ s hs; exact hs
  | cons a t ih =>
    intro h s hs
    rw [List.foldl_cons]
    exact ih (fun s b hb => h s b (List.mem_cons_of_mem a hb)) _ (h s a (List.mem_cons_self a t) hs)

/-- Updating only the logic fields of a row preserves the invariant. -/
theorem inv_update_logic (st : State) (j : ℕ) (L : logic_t) (h : StateInv st) :
    StateInv (update_row st j (fun rw => { rw with logic := L })) := by
  refine ⟨preset_ok_congr _ st.p rfl ?_ h.1, h.2⟩
  intro i hi
  simp only [update_row_row]
  split <;> exact ⟨rfl, rfl⟩

/-- Re-deriving a row's division from the table preserves the invariant. -/
theorem inv_update_division (st s' : State) (j : ℕ)
    (hc : s'.p.config.clock_divs = st.p.config.clock_divs) (h : StateInv st) :
    StateInv (update_row st j (fun rw => { rw with division := get_division s' rw.position })) := by
  refine ⟨⟨?_, ?_⟩, h.2⟩
  · intro k hk
    exact h.1.1 k hk
  · intro i hi
    simp only [update_row_row]
    obtain ⟨h4, h15, hd⟩ := h.1.2 i hi
    split
    · refine ⟨h4, h15, ?_⟩
      show 1 ≤ get_division s' ((st.p.row i).position)
      unfold get_division
      rw [hc]
      exact h.1.1 _ (by omega)
    · exact ⟨h4, h15, hd⟩

theorem inv_set_bits_for_logic_update (st : State) (x y : ℕ) (b : Bool) (h : StateInv st) :
    StateInv (set_bits_for_logic_update st x y b) := by
  unfold set_bits_for_logic_update
  dsimp only
  apply inv_set_trigger_bits
  apply inv_update_division _ _ _ (by simp)
  exact inv_update_logic _ _ _ h

theorem stateInv_congr (s1 s2 : State) (h1 : s1.p = s2.p) (h2 : s1.flash = s2.flash)
    (h : StateInv s2) : StateInv s1 := by
  unfold StateInv
  rw [h1, h2]
  exact h

theorem inv_logic_press (st : State) (x y : ℕ) (h : StateInv st) :
    StateInv (logic_press st x y) := by
  unfold logic_press
  dsimp only
  by_cases hdep : st.p.config.logic_depth = LogicDepth.SINGLE
  · rw [if_pos hdep]
    by_cases hcirc : is_circularly_referenced st y = true
    · rw [if_pos hcirc]
      exact stateInv_congr _ _ rfl rfl h
    · rw [if_neg hcirc]
      by_cases hsel : st.selected_row = y
      · rw [if_pos hsel]
        exact stateInv_congr _ _ rfl rfl h
      · rw [if_neg hsel]
        exact inv_set_bits_for_logic_update _ _ _ _ h
  · rw [if_neg hdep]
    by_cases h1 : is_logically_referenced st y false = true
    · rw [if_pos h1]
      exact stateInv_congr _ _ rfl rfl h
    · rw [if_neg h1]
      by_cases h2 : is_circularly_referenced st y = true
      · rw [if_pos h2]
        exact stateInv_congr _ _ rfl rfl h
      · rw [if_neg h2]
        by_cases h3 : ((process_nested_change st y true).1 = true ∨ st.selected_row = y ∨
            (get_total_logical_refs st > GATE_OUTS - 2 ∧
              ((st.p.row st.selected_row).logic.type == x &&
                (st.p.row st.selected_row).logic.compared_row == y + 1) = false ∧
              ¬(st.p.row st.selected_row).logic.compared_row = y + 1))
        · rw [if_pos h3]
          exact stateInv_congr _ _ rfl rfl h
        · rw [if_neg h3]
          by_cases hwto : ((st.p.row st.selected_row).logic.type == x &&
              (st.p.row st.selected_row).logic.compared_row == y + 1) = true
          · simp only [if_pos hwto]
            split
            next h4 =>
              exact inv_pnc _ _ _ (inv_update_division _ _ _ (by simp)
                (inv_update_logic _ _ _ h))
            next h4 =>
              exact stateInv_congr _ _ rfl rfl (inv_update_logic _ _ _
                (inv_update_division _ _ _ (by simp) (inv_update_logic _ _ _ h)))
          · simp only [if_neg hwto]
            split
            next h4 =>
              exact inv_pnc _ _ _ (inv_update_division _ _ _ (by simp)
                (inv_update_logic _ _ _ h))
            next h4 =>
              exact stateInv_congr _ _ rfl rfl (inv_update_logic _ _ _
                (inv_update_division _ _ _ (by simp) (inv_update_logic _ _ _ h)))

theorem inv_position_division_update (st : State) (x y : ℕ) (hx1 : 3 < x) (hx2 : x < 16)
    (h : StateInv st) :
    StateInv (update_row (update_row st y (fun rw => { rw with position := x })) y (fun rw => { rw with division := get_division (update_row st y (fun rw2 => { rw2 with position := x })) rw.position })) := by
  refine ⟨⟨?_, ?_⟩, h.2⟩
  · intro k hk
    exact h.1.1 k hk
  · intro i hi
    have hi8 : i < 8 := hi
    simp only [update_row_row]
    by_cases hij : i = y
    · simp only [if_pos hij]
      refine ⟨by omega, by omega, ?_⟩
      show 1 ≤ get_division _ x
      unfold get_division
      simp only [update_row_config]
      exact h.1.1 (x - 4) (by omega)
    · simp only [if_neg hij]
      exact h.1.2 i hi

theorem inv_division_press (st : State) (x y : ℕ) (hx1 : 3 < x) (hx2 : x < 16)
    (h : StateInv st) : StateInv (division_press st x y) := by
  unfold division_press
  dsimp only
  split
  · apply foldl_pres _ StateInv
      (by
        intro s a hs
        split
        · exact inv_set_trigger_bits _ _ _ hs
        · exact hs)
    exact inv_set_trigger_bits _ _ _ (inv_position_division_update st x y hx1 hx2 h)
  · exact inv_pnc _ _ _
      (inv_set_trigger_bits _ _ _ (inv_position_division_update st x y hx1 hx2 h))

theorem inv_reset_all_logic (st : State) (h : StateInv st) :
    StateInv (reset_all_logic st) := by
  unfold reset_all_logic
  apply foldl_pres_mem _ StateInv
  · intro s a ha hs
    rw [List.mem_range] at ha
    have ha8 : a < 8 := ha
    dsimp only
    apply inv_set_trigger_bits
    refine ⟨⟨?_, ?_⟩, hs.2⟩
    · intro k hk
      simp only [update_row_config]
      exact hs.1.1 k hk
    · intro i hi
      simp only [update_row_row]
      by_cases hij : i = a
      · simp only [if_pos hij]
        refine ⟨by omega, by omega, ?_⟩
        show 1 ≤ get_division _ (15 - a)
        unfold get_division
        simp only [update_row_config]
        exact hs.1.1 (15 - a - 4) (by omega)
      · simp only [if_neg hij]
        exact hs.1.2 i hi
  · exact h

theorem inv_rotate_clocks (st : State) (h : StateInv st) :
    StateInv (rotate_clocks st) := by
  unfold rotate_clocks
  dsimp only
  have h08 : (0 : ℕ) < 8 := by omega
  have hfp : 4 ≤ (st.p.row 0).position ∧ (st.p.row 0).position ≤ 15 :=
    ⟨(h.1.2 0 h08).1, (h.1.2 0 h08).2.1⟩
  have hfd : 1 ≤ get_division st ((st.p.row 0).position) :=
    get_division_ge_one st _ h.1.1 hfp.1 hfp.2
  apply foldl_pres_mem _ StateInv
  · intro s a ha hs
    rw [List.mem_range] at ha
    have ha8 : a < 8 := ha
    split
    · apply inv_set_trigger_bits
      refine ⟨⟨?_, ?_⟩, hs.2⟩
      · intro k hk
        simp only [update_row_config]
        exact hs.1.1 k hk
      · intro i hi
        simp only [update_row_row]
        by_cases hij : i = 7
        · simp only [if_pos hij]
          exact ⟨hfp.1, hfp.2, hfd⟩
        · simp only [if_neg hij]
          exact hs.1.2 i hi
    · apply inv_set_trigger_bits
      next ha7 =>
      have ha1 : a + 1 < 8 := by omega
      have hnext : 4 ≤ (s.p.row (a + 1)).position ∧ (s.p.row (a + 1)).position ≤ 15 := by
        have hh := hs.1.2 (a + 1) ha1
        exact ⟨hh.1, hh.2.1⟩
      refine ⟨⟨?_, ?_⟩, hs.2⟩
      · intro k hk
        simp only [update_row_config]
        exact hs.1.1 k hk
      · intro i hi
        simp only [update_row_row]
        by_cases hij : i = a
        · simp only [if_pos hij]
          refine ⟨hnext.1, hnext.2, ?_⟩
          show 1 ≤ get_division _ _
          unfold get_division
          simp only [update_row_config]
          exact hs.1.1 _ (by omega)
        · simp only [if_neg hij]
          exact hs.1.2 i hi
  · exact h

theorem inv_fire_gate (st : State) (r : ℕ) (h : StateInv st) : StateInv (fire_gate st r) := by
  refine ⟨preset_ok_congr _ st.p rfl ?_ h.1, h.2⟩
  intro i hi
  exact ⟨fire_gate_position st r i, fire_gate_division st r i⟩

theorem inv_clock (st : State) (h : StateInv st) : StateInv (clock st) := by
  refine ⟨preset_ok_congr _ st.p (by rw [clock_config]) ?_ h.1, ?_⟩
  · intro i hi
    exact ⟨clock_position st i, clock_division st i⟩
  · rw [clock_flash]
    exact h.2

theorem inv_fire_error_alerts (st : State) (h : StateInv st) :
    StateInv (fire_error_alerts st) := by
  refine ⟨preset_ok_congr _ st.p (by rw [fire_error_alerts_config]) ?_ h.1, ?_⟩
  · intro i hi
    rw [fire_error_alerts_row]
    exact ⟨rfl, rfl⟩
  · rw [fire_error_alerts_flash]
    exact h.2

theorem inv_step (st : State) (h : StateInv st) : StateInv (step st) :=
  inv_fire_error_alerts _ (inv_clock _ h)

theorem inv_load_preset (st : State) (k : ℕ) (h : StateInv st) : StateInv (load_preset st k) :=
  ⟨h.2 k, h.2⟩

theorem inv_save_preset (st : State) (h : StateInv st) : StateInv (save_preset st) := by
  refine ⟨h.1, ?_⟩
  intro s
  show preset_ok (if s = st.selected_preset then st.p else st.flash s)
  split
  · exact h.1
  · exact h.2 s

theorem inv_toggle_config_page (st : State) (h : StateInv st) :
    StateInv (toggle_config_page st) := h

theorem inv_set_logic_depth (st : State) (d : LogicDepth) (h : StateInv st) :
    StateInv (set_logic_depth st d) := by
  refine ⟨⟨?_, ?_⟩, h.2⟩
  · intro k hk
    exact h.1.1 k hk
  · intro i hi
    exact h.1.2 i hi

theorem inv_config_input_press (st : State) (x y : ℕ) (onp : Bool) (h : StateInv st) :
    StateInv (config_input_press st x y onp) := by
  unfold config_input_press
  split
  · refine ⟨⟨?_, ?_⟩, h.2⟩
    · intro k hk
      exact h.1.1 k hk
    · intro i hi
      exact h.1.2 i hi
  · exact h

theorem inv_config_chain (s : State) (x y : ℕ) (onp : Bool) (d : LogicDepth)
    (h : StateInv s) :
    StateInv (config_input_press (reset_all_logic (set_logic_depth s d)) x y onp) :=
  inv_config_input_press _ _ _ _ (inv_reset_all_logic _ (inv_set_logic_depth _ _ h))

theorem inv_process_grid_press (st : State) (x y : ℕ) (onp : Bool) (h : StateInv st) :
    StateInv (process_grid_press st x y onp) := by
  unfold process_grid_press
  split
  · dsimp only
    by_cases hld : 2 < x ∧ x < 13 ∧ y = 0 ∧ onp = false
    · rw [if_pos hld]
      have h1 : StateInv (load_preset st (x - 3)) := inv_load_preset _ _ h
      split
      · split
        · exact h1
        · exact inv_config_chain _ _ _ _ _ h1
      · split
        · split
          · exact h1
          · exact inv_config_chain _ _ _ _ _ h1
        · exact inv_config_input_press _ _ _ _ h1
    · rw [if_neg hld]
      split
      · split
        · exact h
        · exact inv_config_chain _ _ _ _ _ h
      · split
        · split
          · exact h
          · exact inv_config_chain _ _ _ _ _ h
        · exact inv_config_input_press _ _ _ _ h
  · split
    · exact h
    · dsimp only
      have hA : StateInv (if x = 0 then { st with selected_row := y } else st) := by
        split
        · exact stateInv_congr _ _ rfl rfl h
        · exact h
      by_cases hxl : 0 < x ∧ x < 4
      · rw [if_pos hxl]
        have hB := inv_logic_press _ x y hA
        by_cases hxd : 3 < x ∧ x < 16
        · rw [if_pos hxd]
          exact inv_division_press _ x y hxd.1 hxd.2 hB
        · rw [if_neg hxd]
          exact hB
      · rw [if_neg hxl]
        by_cases hxd : 3 < x ∧ x < 16
        · rw [if_pos hxd]
          exact inv_division_press _ x y hxd.1 hxd.2 hA
        · rw [if_neg hxd]
          exact hA

theorem inv_process_grid_held (st : State) (x y : ℕ) (h : StateInv st) :
    StateInv (process_grid_held st x y) := by
  unfold process_grid_held
  dsimp only
  by_cases htg : x = 0 ∧ y = 0
  · rw [if_pos htg]
    split
    · exact inv_save_preset _ (stateInv_congr _ _ rfl rfl (inv_toggle_config_page _ h))
    · exact inv_toggle_config_page _ h
  · rw [if_neg htg]
    split
    · exact inv_save_preset _ (stateInv_congr _ _ rfl rfl h)
    · exact h

theorem inv_init_state : StateInv init_state := by
  constructor
  · show preset_ok init_state.p
    refine ⟨?_, ?_⟩
    · decide
    · decide
  · intro s
    have he : init_state.flash s = init_state.p := rfl
    rw [he]
    exact ⟨by decide, by decide⟩

theorem inv_reach (st : State) (hr : Reach st) : StateInv st := by
  induction hr with
  | init => exact inv_init_state
  | press st x y onp _ ih => exact inv_process_grid_press st x y onp ih
  | held st x y _ ih => exact inv_process_grid_held st x y ih
  | tick st _ ih => exact inv_step st ih
  | rotate st _ _ ih => exact inv_rotate_clocks st ih
  | front st _ ih => exact inv_toggle_config_page st ih

/-- C10 (confirmed): in every state reachable from initialization through
the grid-press, grid-hold, tick, rotation and front-button handlers, every
real row's position lies in `[4, 15]` — so the table index `position - 4`
used by `get_division` stays inside the 12-entry divisor table — and every
real row's division is at least 1, so `(i + 1) % division` in
`set_trigger_bits` never divides by zero. -/
theorem C10_row_bounds (st : State) (hr : Reach st) (i : ℕ) (hi : i < GATE_OUTS) :
    4 ≤ (st.p.row i).position ∧ (st.p.row i).position ≤ 15 ∧
    (st.p.row i).position - 4 < 12 ∧ 1 ≤ (st.p.row i).division := by
  have h := (inv_reach st hr).1.2 i hi
  exact ⟨h.1, h.2.1, by omega, h.2.2⟩

/-- Witness for C10 at the initial state and row 0. -/
theorem C10_row_bounds_witness :
    4 ≤ (init_state.p.row 0).position ∧ (init_state.p.row 0).position ≤ 15 ∧
    (init_state.p.row 0).position - 4 < 12 ∧ 1 ≤ (init_state.p.row 0).division :=
  C10_row_bounds init_state Reach.init 0 (by decide)
